import Mathlib

/-
  Verification development for the `pacaur` Ansible module (src/pacaur.py).

  The module manages Arch Linux packages from three origins: the official
  repositories, the AUR, and local package files.  The shallow embedding below
  translates the module's decision logic into Lean.  External effects
  (child-process execution, network metadata queries, the filesystem) are
  modelled by an `Env` of oracles giving each query's outcome, and by a small
  state monad `M` that records the sequence of issued commands (the trace),
  the process working directory, and the mutable `result` dictionary.
  `module.exit_json` / `module.fail_json` are modelled as terminal outcomes.
-/

namespace Pacaur

/-- Desired state of the packages: the `state` module parameter
(`choices: [absent, latest, present]`). -/
inductive PkgState where
  | absent
  | present
  | latest
deriving DecidableEq, Repr

/-- The dictionary built by `get_package_details`:
`{'package': ..., 'installed': ..., 'latest': ...}`. -/
structure PackageDetails where
  package : String
  installed : Bool
  latest : Bool
deriving DecidableEq, Repr

/-- The mutable `result` dictionary of `run_module`:
`dict(changed=False, msg='no action has been taken', handler=None)`. -/
structure ModRes where
  changed : Bool
  msg : String
  handler : Option String
deriving DecidableEq, Repr

/-- One issued external command (child process run or network request).
Read-only probing queries and mutating commands are distinguished by
`Cmd.isMutating` below. -/
inductive Cmd where
  /-- `run_command('whoami')` in `get_current_user_name`. -/
  | whoami
  /-- `[handler, '-S', '-y', ...]` in `refresh_package_databases`. -/
  | refreshDb (cmd : List String)
  /-- `[handler, '-Q', '-u']` in `upgrade`. -/
  | listOutdated (handler : String)
  /-- The actual upgrade command in `upgrade`. -/
  | upgradeSys (cmd : List String)
  /-- `[pacman, '-S', '-s', ere]` in `is_official_package`. -/
  | searchOfficial (pkg : String)
  /-- `[pacman, '-S', '-g', '-q', group]` in `extract_packages`. -/
  | expandGroup (grp : String)
  /-- `[pacman, '-Q', package]` in `is_package_installed`. -/
  | queryInstalled (pkg : String)
  /-- `[pacman, '-Q', '-i', package]` in `get_package_version`. -/
  | queryLocalVersion (pkg : String)
  /-- `[pacman, '-S', '-i', package]` in `get_package_version`. -/
  | queryRemoteVersion (pkg : String)
  /-- The AUR RPC info request in `get_aur_package_info`. -/
  | aurInfo (pkg : String)
  /-- `download_aur_package`: fetch the source archive and write it locally. -/
  | aurDownload (file : String) (urlPath : String)
  /-- The remove command built by `prepare_remove_package_command` plus the
  package name, issued in `remove_packages`. -/
  | remove (cmd : List String)
  /-- An install command issued by `run_install_packages_command`
  (already extended with extra args and the package list). -/
  | install (cmd : List String)
  /-- The makepkg command of `install_aur_packages_with_makepkg`, issued in
  working directory `dir`. -/
  | makepkg (cmd : List String) (dir : String)
deriving DecidableEq, Repr

/-- Whether a command mutates host state (package databases, installed
packages, or the filesystem), as opposed to a read-only probing query. -/
def Cmd.isMutating : Cmd → Bool
  | Cmd.refreshDb _ => true
  | Cmd.upgradeSys _ => true
  | Cmd.aurDownload _ _ => true
  | Cmd.remove _ => true
  | Cmd.install _ => true
  | Cmd.makepkg _ _ => true
  | _ => false

/-- Whether a command installs, removes, upgrades or builds packages (a
package-state mutation; the database refresh and the source download are
excluded). -/
def Cmd.isPkgChange : Cmd → Bool
  | Cmd.upgradeSys _ => true
  | Cmd.remove _ => true
  | Cmd.install _ => true
  | Cmd.makepkg _ _ => true
  | _ => false

/-- A terminal outcome of the run: `module.exit_json(**result)` or
`module.fail_json(**result)`. -/
inductive Term where
  | exited (r : ModRes)
  | failed (r : ModRes)
deriving DecidableEq, Repr

/-- The `result` dictionary carried by a terminal outcome. -/
def Term.res : Term → ModRes
  | Term.exited r => r
  | Term.failed r => r

/-- Mutable process state threaded through the run: the working directory
(`os.getcwd()` / `os.chdir`) and the `result` dictionary. -/
structure St where
  cwd : String
  res : ModRes
deriving DecidableEq, Repr

/-- Oracles describing the host environment: outcomes of every external
query the module can make.  Each field abstracts the observable result of
one collaborator call (`rc`/parsed stdout of a command, or a parsed network
response); the module only ever branches on these values. -/
structure Env where
  /-- `module.get_bin_path('pacman', True)`. -/
  pacman : String
  /-- Result of `get_current_user_name` (the stripped `whoami` output, or
  `'root'` when the command fails). -/
  user : String
  /-- Result of `get_pacman_wrapper`: the first of yay/pikaur/trizen found by
  `module.get_bin_path`, if any. -/
  wrapper : Option String
  /-- Whether `module.get_bin_path('fakeroot', True)` succeeds. -/
  hasFakeroot : Bool
  /-- `module.get_bin_path('makepkg')`: the path when makepkg is installed,
  `None` (like the Python lookup without `required`) when it is absent. -/
  makepkgPath : Option String
  /-- `resultcount` of the AUR RPC info response for a package name. -/
  aurResultcount : String → Nat
  /-- `results[0]['Name']` of the AUR RPC info response. -/
  aurName : String → String
  /-- `results[0]['URLPath']` of the AUR RPC info response. -/
  aurUrlPath : String → String
  /-- `results[0]['Version']` of the AUR RPC info response. -/
  aurVersionRaw : String → String
  /-- Whether `[pacman, '-S', '-s', '^pkg$']` exits 0 (`is_official_package`). -/
  officialOk : String → Bool
  /-- The member list parsed from `[pacman, '-S', '-g', '-q', grp]` output in
  `extract_packages` (empty when the command fails or prints nothing). -/
  groupMembers : String → List String
  /-- Whether `[pacman, '-Q', pkg]` exits 0 (`is_package_installed`). -/
  installed : String → Bool
  /-- The version parsed by `get_package_version(pkg)` from `pacman -Q -i`
  output (`none` when the command fails). -/
  localVersion : String → Option String
  /-- The version parsed by `get_package_version(pkg, remote_version=True)`
  from `pacman -S -i` output (`none` when the command fails). -/
  remoteVersion : String → Option String
  /-- The absolute path of the `tempfile.TemporaryDirectory()` created while
  building a given AUR package. -/
  tmpDir : String → String
  /-- Whether `[handler, '-Q', '-u']` exits 0 with non-empty output in
  `upgrade`. -/
  outdated : Bool
  /-- Whether a given mutating command exits 0. -/
  cmdOk : Cmd → Bool

/-- The module parameters relevant to the embedded logic (`module.params`).
`name = []` models both an absent and an empty `name` parameter, which Python
treats identically (both falsy). -/
structure Params where
  name : List String
  state : PkgState
  upgrade : Bool
  update_cache : Bool
  force : Bool
  extra_args : String

/-- The effect monad: threads `St`, records the issued command trace, and
short-circuits on a terminal `exit_json`/`fail_json`. -/
def M (α : Type) : Type := St → St × List Cmd × Except Term α

/-- Monadic return. -/
def M.pure {α : Type} (a : α) : M α := fun s => (s, [], Except.ok a)

/-- Monadic bind: sequences two effects, concatenating their traces; a
terminal outcome in the first effect skips the second. -/
def M.bind {α β : Type} (x : M α) (f : α → M β) : M β := fun s =>
  match x s with
  | (s1, t1, Except.ok a) =>
      match f a s1 with
      | (s2, t2, r) => (s2, t1 ++ t2, r)
  | (s1, t1, Except.error e) => (s1, t1, Except.error e)

instance : Monad M where
  pure := M.pure
  bind := M.bind

/-- Record one issued external command. -/
def emit (c : Cmd) : M Unit := fun s => (s, [c], Except.ok ())

/-- `os.getcwd()`. -/
def getCwd : M String := fun s => (s, [], Except.ok s.cwd)

/-- POSIX: a path is absolute iff it starts with a slash. -/
def is_absolute_path (p : String) : Bool :=
  match p.data with
  | c :: _ => c = '/'
  | [] => false

/-- `os.chdir(p)`: POSIX semantics, a relative path is resolved against the
current working directory. -/
def osChdir (p : String) : M Unit := fun s =>
  ({ s with cwd := if is_absolute_path p then p else s.cwd ++ "/" ++ p }, [], Except.ok ())

/-- `result['msg'] = m`. -/
def setMsg (m : String) : M Unit := fun s =>
  ({ s with res := { s.res with msg := m } }, [], Except.ok ())

/-- `result['changed'] = b`. -/
def setChanged (b : Bool) : M Unit := fun s =>
  ({ s with res := { s.res with changed := b } }, [], Except.ok ())

/-- `result['handler'] = h`: the stored value is whatever the caller holds —
a program path, or `None` (e.g. a failed makepkg lookup). -/
def setHandler (h : Option String) : M Unit := fun s =>
  ({ s with res := { s.res with handler := h } }, [], Except.ok ())

/-- `module.exit_json(**result)`: terminal success carrying the current
result dictionary. -/
def exitJson {α : Type} : M α := fun s => (s, [], Except.error (Term.exited s.res))

/-- `module.fail_json(**result)`: terminal failure carrying the current
result dictionary. -/
def failJson {α : Type} : M α := fun s => (s, [], Except.error (Term.failed s.res))

/-! ## Pure string helpers translated from the source -/

/-- Python `str.split(sep)` for a one-character separator, on the character
list. -/
def split_char (sep : Char) : List Char → List (List Char)
  | [] => [[]]
  | c :: rest =>
    match split_char sep rest with
    | [] => if c = sep then [[], []] else [[c]]
    | h :: t => if c = sep then [] :: h :: t else (c :: h) :: t

/-- Python `str.strip()`: drop leading and trailing whitespace. -/
def py_strip (s : String) : String :=
  ⟨((s.data.dropWhile Char.isWhitespace).reverse.dropWhile Char.isWhitespace).reverse⟩

/-- `'{}'.split('/')[-1]`: the last slash-separated component. -/
def last_path_component (s : String) : String :=
  ⟨(split_char '/' s.data).getLastD s.data⟩

/-- One step of `re.sub('-[0-9].*$', '', s)` on the character list: delete
everything from the leftmost occurrence of a hyphen followed by a digit. -/
def strip_package_version_chars : List Char → List Char
  | [] => []
  | c :: rest =>
    if c = '-' && (match rest with | d :: _ => d.isDigit | [] => false) then []
    else c :: strip_package_version_chars rest

/-- `re.sub(package_version_pattern, '', s)` with
`package_version_pattern = '-[0-9].*$'`. -/
def strip_package_version (s : String) : String :=
  ⟨strip_package_version_chars s.data⟩

/-- `'{}'.split(':')[-1].strip()`: keep what follows the last colon
(drops a leading epoch) and strip whitespace. -/
def last_colon_field (s : String) : String :=
  py_strip ⟨(split_char ':' s.data).getLastD s.data⟩

/-- `is_local_package`: whether the name matches
`^.+\.pkg\.tar(\.(gz|bz2|xz|lrz|lzo|Z))?$`, i.e. ends in one of the archive
suffixes with a non-empty stem before it. -/
def is_local_package (s : String) : Bool :=
  [".pkg.tar", ".pkg.tar.gz", ".pkg.tar.bz2", ".pkg.tar.xz",
   ".pkg.tar.lrz", ".pkg.tar.lzo", ".pkg.tar.Z"].any
    (fun suf => List.isSuffixOf suf.data s.data && suf.length < s.length)

/-- `split_extra_args`: Python `str.split()` on whitespace of a possibly
empty string. -/
def split_extra_args (s : String) : List String :=
  if s = "" then [] else (s.split Char.isWhitespace).filter (fun w => w ≠ "")

/-- The `state_equivalents` lookup table. -/
def state_equivalents : PkgState → String
  | PkgState.absent => "removed"
  | PkgState.present => "installed"
  | PkgState.latest => "updated"

/-- The fixed per-wrapper argument templates of the `pacman_wrappers` table.
An unknown base name returns `[]` (in the source this would be a `KeyError`;
it is unreachable because `get_pacman_wrapper` only ever returns one of the
three listed names). -/
def pacman_wrapper_args (base : String) (upgrade_mode : Bool) : List String :=
  if base = "yay" then
    if upgrade_mode then ["-S", "-u", "-q", "--noconfirm"]
    else ["-S", "--needed", "--noconfirm", "--noprogressbar", "--cleanafter"]
  else if base = "pikaur" then
    if upgrade_mode then ["-S", "-u", "-q", "--noconfirm"]
    else ["-S", "--needed", "--noconfirm", "--noprogressbar", "--noedit"]
  else if base = "trizen" then
    if upgrade_mode then ["-S", "-u", "-q", "--noconfirm"]
    else ["-S", "--needed", "--noconfirm", "--noprogressbar", "--noedit"]
  else []

/-- `get_pacman_wrapper_command`: `[wrapper] + pacman_wrappers[base][action]`. -/
def get_pacman_wrapper_command (wrapper : String) (upgrade_mode : Bool) : List String :=
  wrapper :: pacman_wrapper_args (last_path_component wrapper) upgrade_mode

/-! ## Monadic translations of the source functions -/

/-- `get_current_user_name`: runs `whoami`; `Env.user` is the resulting name
(already defaulted to `'root'` when the command fails). -/
def get_current_user_name (env : Env) : M String := do
  emit Cmd.whoami
  pure env.user

/-- `get_pacman_wrapper`: `module.get_bin_path` lookups (not child-process
runs, hence no trace entry); `Env.wrapper` is the first wrapper found. -/
def get_pacman_wrapper (env : Env) : M (Option String) :=
  pure env.wrapper

/-- `get_handler`: the wrapper if the user is not root and one is installed,
otherwise pacman. -/
def get_handler (env : Env) : M String := do
  let user ← get_current_user_name env
  if user ≠ "root" then
    match ← get_pacman_wrapper env with
    | some wrapper => pure wrapper
    | none => pure env.pacman
  else
    pure env.pacman

/-- `refresh_package_databases`. -/
def refresh_package_databases (env : Env) (p : Params) : M Unit := do
  let handler ← get_handler env
  let user ← get_current_user_name env
  (if handler = env.pacman && user ≠ "root" then do
    setMsg "could not refresh the master package databases as a non-root user when no pacman wrapper is installed"
    failJson
  else pure ())
  let args := ["-S", "-y"] ++ (if p.force then ["-y"] else [])
    ++ (if !(!p.name.isEmpty || p.upgrade) then split_extra_args p.extra_args else [])
  let c := Cmd.refreshDb (handler :: args)
  emit c
  (if !env.cmdOk c then do
    setMsg "could not refresh the master package databases: "
    failJson
  else pure ())

/-- `return_update_cache_result`. -/
def return_update_cache_result (submsg : String) : M Unit := do
  setChanged true
  setMsg ("master package databases " ++ submsg ++ " refreshed")
  exitJson

/-- `return_upgrade_result`. -/
def return_upgrade_result (submsg : String) : M Unit := do
  setChanged true
  setMsg ("system " ++ submsg ++ " upgraded")
  exitJson

/-- `upgrade`: upgrade the whole system. -/
def upgrade (env : Env) (p : Params) : M Unit := do
  let handler ← get_handler env
  let cmd ←
    (if handler = env.pacman then do
      let user ← get_current_user_name env
      (if user ≠ "root" then do
        setMsg "could not upgrade the system as a non-root user when no pacman wrapper is installed"
        failJson
      else pure ())
      pure [env.pacman, "-S", "-u", "-q", "--noconfirm"]
    else
      pure (get_pacman_wrapper_command handler true))
  emit (Cmd.listOutdated handler)
  (if !env.outdated then do
    setMsg "system is up to date"
    exitJson
  else pure ())
  let c := Cmd.upgradeSys (cmd ++ split_extra_args p.extra_args)
  emit c
  (if !env.cmdOk c then do
    setMsg "could not upgrade the system: "
    failJson
  else pure ())
  setHandler (some handler)
  return_upgrade_result "has been"

/-- The parsed AUR RPC info response used by `get_aur_package_info` callers. -/
structure AurInfo where
  resultcount : Nat
  name : String
  urlPath : String
  version : String
deriving DecidableEq, Repr

/-- `get_aur_package_info`: the AUR RPC info request. -/
def get_aur_package_info (env : Env) (package : String) : M AurInfo := do
  emit (Cmd.aurInfo package)
  pure { resultcount := env.aurResultcount package,
         name := env.aurName package,
         urlPath := env.aurUrlPath package,
         version := env.aurVersionRaw package }

/-- `is_aur_package`: `info['resultcount'] > 0`. -/
def is_aur_package (env : Env) (package : String) : M Bool := do
  let info ← get_aur_package_info env package
  pure (info.resultcount > 0)

/-- `is_official_package`: `pacman -S -s '^pkg$'` exits 0. -/
def is_official_package (env : Env) (package : String) : M Bool := do
  emit (Cmd.searchOfficial package)
  pure (env.officialOk package)

/-- `extract_packages`: the member list of an official repository group. -/
def extract_packages (env : Env) (package_group : String) : M (List String) := do
  emit (Cmd.expandGroup package_group)
  pure (env.groupMembers package_group)

/-- The classification loop of `group_packages` (the `for name in names`
body), accumulating the `(packages, aur_packages, local_packages)` buckets in
order. -/
def group_packages_loop (env : Env) (p : Params) :
    List String → List String × List String × List String →
    M (List String × List String × List String)
  | [], acc => pure acc
  | n :: rest, acc => do
    if n = "" then
      group_packages_loop env p rest acc
    else if is_local_package n then
      group_packages_loop env p rest (acc.1, acc.2.1, acc.2.2 ++ [n])
    else do
      let aur ← is_aur_package env n
      if aur && !p.force then
        group_packages_loop env p rest (acc.1, acc.2.1 ++ [n], acc.2.2)
      else do
        let official ← is_official_package env n
        if official then do
          let extracted ← extract_packages env n
          group_packages_loop env p rest
            ((if extracted.isEmpty then acc.1 ++ [n] else acc.1 ++ extracted),
             acc.2.1, acc.2.2)
        else do
          setMsg "unavailable package has been detected"
          failJson

/-- `group_packages`: partition the requested names by origin; for `absent`
every non-empty name is a plain removal target. -/
def group_packages (env : Env) (p : Params) (names : List String) :
    M (List String × List String × List String) :=
  if p.state ≠ PkgState.absent then group_packages_loop env p names ([], [], [])
  else pure (names.filter (fun n => n ≠ ""), [], [])

/-- `is_package_installed`: `pacman -Q pkg` exits 0. -/
def is_package_installed (env : Env) (package : String) : M Bool := do
  emit (Cmd.queryInstalled package)
  pure (env.installed package)

/-- `get_package_version`: local (`-Q -i`) or remote (`-S -i`) version of a
package; `none` when the query fails. -/
def get_package_version (env : Env) (package : String) (remote_version : Bool) :
    M (Option String) := do
  emit (if remote_version then Cmd.queryRemoteVersion package
        else Cmd.queryLocalVersion package)
  pure (if remote_version then env.remoteVersion package else env.localVersion package)

/-- `get_aur_package_version`: the AUR version with a leading epoch stripped,
`none` when the package has no AUR result. -/
def get_aur_package_version (env : Env) (package : String) : M (Option String) := do
  let info ← get_aur_package_info env package
  if info.resultcount > 0 then
    pure (some (last_colon_field info.version))
  else
    pure none

/-- `get_package_details`: installed flag, and the `latest` flag computed
only for state `latest` on an installed package (left at `installed`
otherwise, and when the remote version cannot be determined). -/
def get_package_details (env : Env) (p : Params) (package : String)
    (aur_package : Bool) : M PackageDetails := do
  let inst ← is_package_installed env package
  if p.state = PkgState.latest && inst then do
    let version ← get_package_version env package false
    let remote ← (if aur_package then get_aur_package_version env package
                  else get_package_version env package true)
    match remote with
    | some rv =>
        pure { package := package, installed := inst,
               latest := decide (version = some rv) }
    | none => pure { package := package, installed := inst, latest := inst }
  else
    pure { package := package, installed := inst, latest := inst }

/-- `is_state_change_required`: the convergence decision table. -/
def is_state_change_required (state : PkgState) (details : PackageDetails) : Bool :=
  (state = PkgState.absent && details.installed)
  || (state = PkgState.present && !details.installed)
  || (state = PkgState.latest && !(details.installed && details.latest))

/-- `return_name_result`: build the final message for the `name` option and
exit. -/
def return_name_result (p : Params) (number_of_changes : Nat)
    (single_package : Bool) (check_mode : Bool) : M Unit := do
  let multiple_submsg := if check_mode then "would be" else "have been"
  let single_submsg := if check_mode then "would be" else "has been"
  (if number_of_changes > 0 then do
    setChanged true
    setMsg (if number_of_changes > 1 then
        toString number_of_changes ++ " packages " ++ multiple_submsg ++ " "
          ++ state_equivalents p.state
      else "package " ++ single_submsg ++ " " ++ state_equivalents p.state)
  else
    setMsg (if single_package then
        "package is already " ++ state_equivalents p.state
      else "all packages are already " ++ state_equivalents p.state))
  exitJson

/-- The detail-collecting loops of `run_name_check_mode` over the official
and AUR buckets. -/
def collect_details_loop (env : Env) (p : Params) (aur_package : Bool) :
    List String → M (List PackageDetails)
  | [] => pure []
  | pkg :: rest => do
    let d ← get_package_details env p pkg aur_package
    let ds ← collect_details_loop env p aur_package rest
    pure (d :: ds)

/-- The local-file loop of `run_name_check_mode`: the name is normalized by
`re.sub(package_version_pattern, '', package.split('/')[-1])` first. -/
def collect_local_details_loop (env : Env) (p : Params) :
    List String → M (List PackageDetails)
  | [] => pure []
  | pkg :: rest => do
    let nm := strip_package_version (last_path_component pkg)
    let d ← get_package_details env p nm false
    let ds ← collect_local_details_loop env p rest
    pure (d :: ds)

/-- The change-counting loop of `run_name_check_mode`. -/
def count_changes (state : PkgState) (ds : List PackageDetails) : Nat :=
  ds.foldl (fun k d => if is_state_change_required state d then k + 1 else k) 0

/-- `run_name_check_mode`: dry-run reporting for the `name` option. -/
def run_name_check_mode (env : Env) (p : Params)
    (packages aur_packages local_packages : List String) : M Unit := do
  let d1 ← collect_details_loop env p false packages
  let rest ←
    (if p.state ≠ PkgState.absent then do
      let d2 ← collect_details_loop env p true aur_packages
      let d3 ← collect_local_details_loop env p local_packages
      pure (d2 ++ d3)
    else
      pure [])
  let collected := d1 ++ rest
  return_name_result p (count_changes p.state collected) (collected.length = 1) true

/-- `prepare_remove_package_command`: `[pacman, '-R']`, doubled `-d` under
force, the fixed flags, and the extra arguments. -/
def prepare_remove_package_command (env : Env) (p : Params) : List String :=
  [env.pacman, "-R"] ++ (if p.force then ["-d", "-d"] else [])
    ++ ["--noconfirm", "--noprogressbar"] ++ split_extra_args p.extra_args

/-- The removal loop of `remove_packages`: remove each installed package,
counting changes, failing fast on a non-zero exit. -/
def remove_packages_loop (env : Env) (p : Params) :
    List String → Nat → M Nat
  | [], n => pure n
  | pkg :: rest, n => do
    let package_details ← get_package_details env p pkg false
    if package_details.installed then do
      let c := Cmd.remove (prepare_remove_package_command env p ++ [package_details.package])
      emit c
      (if !env.cmdOk c then do
        setMsg ("failed to remove " ++ package_details.package ++ ": ")
        failJson
      else pure ())
      remove_packages_loop env p rest (n + 1)
    else
      remove_packages_loop env p rest n

/-- `remove_packages`. -/
def remove_packages (env : Env) (p : Params) (packages : List String) : M Unit := do
  let number_of_changes ← remove_packages_loop env p packages 0
  return_name_result p number_of_changes (packages.length = 1) false

/-- `run_install_packages_command`: extend the command with the extra
arguments and the packages, run it, fail on non-zero exit. -/
def run_install_packages_command (env : Env) (p : Params)
    (cmd : List String) (packages : List String) : M Unit := do
  let c := Cmd.install (cmd ++ split_extra_args p.extra_args ++ packages)
  emit c
  if !env.cmdOk c then do
    setMsg ("failed to install " ++ String.intercalate " " packages ++ ": ")
    failJson

/-- The selection loop shared by `install_packages_with_pacman` and
`install_packages_with_wrapper`: keep the packages whose state must change;
local resources are looked up under their normalized name but kept under
their original path. -/
def select_install_loop (env : Env) (p : Params) (aur_package : Bool)
    (local_resources : Bool) : List String → M (List String)
  | [] => pure []
  | pkg :: rest => do
    let package_name := if local_resources then
        strip_package_version (last_path_component pkg)
      else pkg
    let d ← get_package_details env p package_name aur_package
    let sel ← select_install_loop env p aur_package local_resources rest
    pure ((if is_state_change_required p.state d then [pkg] else []) ++ sel)

/-- `install_packages_with_pacman`. -/
def install_packages_with_pacman (env : Env) (p : Params)
    (packages : List String) (local_resources : Bool) : M Nat := do
  let packages_to_install ← select_install_loop env p false local_resources packages
  (if !packages_to_install.isEmpty then do
    let cmd := (if local_resources then [env.pacman, "-U"] else [env.pacman, "-S"])
      ++ ["--needed", "--noconfirm", "--noprogressbar"]
    run_install_packages_command env p cmd packages_to_install
  else pure ())
  pure packages_to_install.length

/-- `install_packages_with_wrapper`. -/
def install_packages_with_wrapper (env : Env) (p : Params)
    (packages aur_packages : List String) (wrapper : String) : M Nat := do
  let s1 ← select_install_loop env p false false packages
  let s2 ← select_install_loop env p true false aur_packages
  let packages_to_install := s1 ++ s2
  (if !packages_to_install.isEmpty then
    run_install_packages_command env p (get_pacman_wrapper_command wrapper false)
      packages_to_install
  else pure ())
  pure packages_to_install.length

/-- `download_aur_package`: fetch the source archive and write it to the
current directory. -/
def download_aur_package (file_name url_path : String) : M Unit :=
  emit (Cmd.aurDownload file_name url_path)

/-- `prepare_aur_package_install_command`: the command head is the makepkg
lookup result.  (In the source a missing makepkg would put `None` at the head
of the argv list and crash the child-process launcher on use; the model maps
that unusable head to the empty program path.) -/
def prepare_aur_package_install_command (env : Env) (p : Params) : List String :=
  [(match env.makepkgPath with | some m => m | none => ""),
   "-s", "-i", "--needed", "--noconfirm", "--noprogressbar"]
    ++ split_extra_args p.extra_args

/-- The per-package build loop of `install_aur_packages_with_makepkg`: for
each package needing change, look up its AUR metadata, enter a fresh scratch
directory, download and unpack the source, enter the package directory and
run makepkg, failing fast on any error.  (`extract_tar_file` is a local
archive unpack, not an external command.) -/
def install_aur_packages_with_makepkg_loop (env : Env) (p : Params)
    (cmd : List String) : List String → Nat → M Nat
  | [], n => pure n
  | pkg :: rest, n => do
    let d ← get_package_details env p pkg true
    if is_state_change_required p.state d then do
      let info ← get_aur_package_info env pkg
      (if info.resultcount < 1 then do
        setMsg ("failed to install " ++ pkg ++ ": could not retrieve the package details")
        failJson
      else pure ())
      let package_name := py_strip info.name
      let url_path := py_strip info.urlPath
      let tar_file_name := package_name ++ ".tar.gz"
      osChdir (env.tmpDir pkg)
      download_aur_package tar_file_name url_path
      osChdir package_name
      let dir ← getCwd
      let c := Cmd.makepkg cmd dir
      emit c
      (if !env.cmdOk c then do
        setMsg ("failed to install " ++ pkg ++ ": ")
        failJson
      else pure ())
      install_aur_packages_with_makepkg_loop env p cmd rest (n + 1)
    else
      install_aur_packages_with_makepkg_loop env p cmd rest n

/-- `install_aur_packages_with_makepkg`: snapshot the working directory,
process the packages, then `os.chdir` back (only reached when every package
succeeded: each failure above is a terminal `fail_json`). -/
def install_aur_packages_with_makepkg (env : Env) (p : Params)
    (packages : List String) : M Nat := do
  let cmd := prepare_aur_package_install_command env p
  let current_directory ← getCwd
  let number_of_changes ←
    install_aur_packages_with_makepkg_loop env p cmd packages 0
  osChdir current_directory
  pure number_of_changes

/-- `install_packages_with_aur_support`: forbidden as root; a wrapper handles
both buckets; without a wrapper, official packages may not be mixed in,
fakeroot is required, and makepkg builds each AUR package. -/
def install_packages_with_aur_support (env : Env) (p : Params)
    (packages aur_packages : List String) : M (Option String × Nat) := do
  let user ← get_current_user_name env
  (if user = "root" then do
    setMsg "could not install aur packages as a root"
    failJson
  else pure ())
  let handler ← get_handler env
  if handler ≠ env.pacman then do
    let n ← install_packages_with_wrapper env p packages aur_packages handler
    pure (some handler, n)
  else do
    (if !packages.isEmpty then do
      setMsg "could not install packages from the official repositories mixed with aur packages when no pacman wrapper is installed"
      failJson
    else pure ())
    (if !env.hasFakeroot then do
      setMsg "Failed to find required executable fakeroot"
      failJson
    else pure ())
    let n ← install_aur_packages_with_makepkg env p aur_packages
    pure (env.makepkgPath, n)

/-- `install_packages`. -/
def install_packages (env : Env) (p : Params)
    (packages aur_packages local_packages : List String) : M Unit := do
  let number_of_all_packages :=
    packages.length + aur_packages.length + local_packages.length
  if !aur_packages.isEmpty then do
    let (handler, number_of_changes) ←
      install_packages_with_aur_support env p packages aur_packages
    setHandler handler
    return_name_result p number_of_changes (number_of_all_packages = 1) false
  else do
    let user ← get_current_user_name env
    (if user ≠ "root" then do
      setMsg "could not install neither packages from the official repositories nor local packages as a non-root user"
      failJson
    else pure ())
    let n1 ← (if !packages.isEmpty then install_packages_with_pacman env p packages false
              else pure 0)
    let n2 ← (if !local_packages.isEmpty then
        install_packages_with_pacman env p local_packages true
      else pure 0)
    setHandler (some env.pacman)
    return_name_result p (n1 + n2) (number_of_all_packages = 1) false

/-- The initial `result` dictionary of `run_module`. -/
def initial_result : ModRes :=
  { changed := false, msg := "no action has been taken", handler := none }

/-- The `update_cache` block of `run_module`: refresh the databases (outside
check mode) and terminate here when `update_cache` is the only requested
action. -/
def update_cache_stage (env : Env) (p : Params) (check_mode : Bool) : M Unit :=
  if p.update_cache then
    (if !check_mode then do
      refresh_package_databases env p
      (if !(!p.name.isEmpty || p.upgrade) then
        return_update_cache_result "have been"
      else pure ())
    else if !(!p.name.isEmpty || p.upgrade) then
      return_update_cache_result "would be"
    else pure ())
  else pure ()

/-- The `upgrade` block of `run_module`. -/
def upgrade_stage (env : Env) (p : Params) (check_mode : Bool) : M Unit :=
  if p.upgrade then
    (if check_mode then return_upgrade_result "would be"
    else upgrade env p)
  else pure ()

/-- The `name` block of `run_module`: classify, validate the origin mix,
report in check mode, then remove or install. -/
def name_stage (env : Env) (p : Params) (check_mode : Bool) : M Unit :=
  if !p.name.isEmpty then do
    let (packages, aur_packages, local_packages) ← group_packages env p p.name
    (if !aur_packages.isEmpty && !local_packages.isEmpty then do
      setMsg "could not install aur packages mixed with local packages"
      failJson
    else pure ())
    (if check_mode then
      run_name_check_mode env p packages aur_packages local_packages
    else pure ())
    if p.state = PkgState.absent then
      remove_packages env p packages
    else
      install_packages env p packages aur_packages local_packages
  else
    exitJson

/-- The body of `run_module` after parameter validation: the
refresh / upgrade / named-package stages in order. -/
def run_moduleM (env : Env) (p : Params) (check_mode : Bool) : M Unit := do
  update_cache_stage env p check_mode
  upgrade_stage env p check_mode
  name_stage env p check_mode

/-- A whole run of `run_module`: final process state, issued command trace,
and terminal outcome.  Every path of the source ends in `exit_json` or
`fail_json`; a (unreachable) normal return is mapped to `exit_json`. -/
def run_module (env : Env) (p : Params) (check_mode : Bool) (cwd0 : String) :
    St × List Cmd × Term :=
  match run_moduleM env p check_mode { cwd := cwd0, res := initial_result } with
  | (s, t, Except.error e) => (s, t, e)
  | (s, t, Except.ok _) => (s, t, Term.exited s.res)

/-! ## Pure value-level view of the classification (`group_packages`) -/

/-- The value computed by one iteration of the `group_packages` loop for name
`n` on bucket accumulator `acc`: `none` is the terminal "unavailable package"
failure.  This is the pure projection of `group_packages_loop`; the agreement
lemma `group_packages_loop_ok` below ties the two. -/
def classifyStep (env : Env) (p : Params) (n : String)
    (acc : List String × List String × List String) :
    Option (List String × List String × List String) :=
  if n = "" then some acc
  else if is_local_package n then some (acc.1, acc.2.1, acc.2.2 ++ [n])
  else if env.aurResultcount n > 0 && !p.force then
    some (acc.1, acc.2.1 ++ [n], acc.2.2)
  else if env.officialOk n then
    some ((if (env.groupMembers n).isEmpty then acc.1 ++ [n]
           else acc.1 ++ env.groupMembers n), acc.2.1, acc.2.2)
  else none

/-- The pure projection of the whole `group_packages` loop. -/
def classifyFold (env : Env) (p : Params) :
    List String → List String × List String × List String →
    Option (List String × List String × List String)
  | [], acc => some acc
  | n :: rest, acc =>
    match classifyStep env p n acc with
    | some acc2 => classifyFold env p rest acc2
    | none => none

/-- The pure projection of `group_packages`. -/
def classifyBuckets (env : Env) (p : Params) (names : List String) :
    Option (List String × List String × List String) :=
  if p.state ≠ PkgState.absent then classifyFold env p names ([], [], [])
  else some (names.filter (fun n => n ≠ ""), [], [])

/-! ## Basic reasoning lemmas about `M` -/

theorem bind_def {α β : Type} (x : M α) (f : α → M β) : x >>= f = M.bind x f := rfl

theorem pure_def {α : Type} (a : α) : (pure a : M α) = M.pure a := rfl

theorem pure_app {α : Type} (a : α) (s : St) : (pure a : M α) s = (s, [], Except.ok a) := rfl

theorem bind_ok {α β : Type} {x : M α} {f : α → M β} {s s1 : St} {t1 : List Cmd} {a : α}
    (h : x s = (s1, t1, Except.ok a)) :
    (x >>= f) s = ((f a s1).1, t1 ++ (f a s1).2.1, (f a s1).2.2) := by
  rw [bind_def]
  unfold M.bind
  rw [h]

theorem bind_err {α β : Type} {x : M α} {f : α → M β} {s s1 : St} {t1 : List Cmd} {e : Term}
    (h : x s = (s1, t1, Except.error e)) :
    (x >>= f) s = (s1, t1, Except.error e) := by
  rw [bind_def]
  unfold M.bind
  rw [h]

/-- An effect that only issues read-only probing commands. -/
def ProbeOnly {α : Type} (m : M α) : Prop :=
  ∀ s : St, ∀ c ∈ (m s).2.1, c.isMutating = false

/-- An effect that always reaches a terminal `exit_json`/`fail_json`. -/
def NeverOk {α : Type} (m : M α) : Prop :=
  ∀ s : St, ∃ e, (m s).2.2 = Except.error e

/-- An effect whose terminal outcomes are all failures (never `exit_json`). -/
def FailOnly {α : Type} (m : M α) : Prop :=
  ∀ s : St, ∀ e, (m s).2.2 = Except.error e → ∃ r, e = Term.failed r

/-- An effect that never touches `result['handler']`, in its final state as
well as in any terminal outcome it produces. -/
def HKeep {α : Type} (m : M α) : Prop :=
  ∀ s : St, ((m s).1).res.handler = s.res.handler
    ∧ ∀ e, (m s).2.2 = Except.error e → e.res.handler = s.res.handler

/-- Predicate on the values an effect can return successfully. -/
def OkVal {α : Type} (Q : α → Prop) (m : M α) : Prop :=
  ∀ s s2 t a, m s = (s2, t, Except.ok a) → Q a

/-- Every `exit_json` outcome of the effect carries a handler value
satisfying `P`. -/
def ExitHandler (P : Option String → Prop) {α : Type} (m : M α) : Prop :=
  ∀ s : St, ∀ r, (m s).2.2 = Except.error (Term.exited r) → P r.handler

theorem probeOnly_bind {α β : Type} {x : M α} {f : α → M β}
    (hx : ProbeOnly x) (hf : ∀ a, ProbeOnly (f a)) : ProbeOnly (x >>= f) := by
  intro s c hc
  rcases hx' : x s with ⟨s1, t1, r⟩
  cases r with
  | ok a =>
    rw [bind_ok hx'] at hc
    simp only [List.mem_append] at hc
    rcases hc with hc | hc
    · exact hx s c (by rw [hx']; exact hc)
    · exact hf a s1 c hc
  | error e =>
    rw [bind_err hx'] at hc
    exact hx s c (by rw [hx']; exact hc)

theorem probeOnly_bind_neverOk {α β : Type} {x : M α} {f : α → M β}
    (hx : ProbeOnly x) (hnox : NeverOk x) : ProbeOnly (x >>= f) := by
  intro s c hc
  rcases hx' : x s with ⟨s1, t1, r⟩
  cases r with
  | ok a =>
    obtain ⟨e, he⟩ := hnox s
    rw [hx'] at he
    simp at he
  | error e =>
    rw [bind_err hx'] at hc
    exact hx s c (by rw [hx']; exact hc)

theorem probeOnly_ite {α : Type} (c : Prop) [Decidable c] {m1 m2 : M α}
    (h1 : ProbeOnly m1) (h2 : ProbeOnly m2) : ProbeOnly (if c then m1 else m2) := by
  by_cases h : c
  · rwa [if_pos h]
  · rwa [if_neg h]

theorem probeOnly_ite_pos {α : Type} (c : Prop) [Decidable c] {m1 m2 : M α}
    (hc : c) (h1 : ProbeOnly m1) : ProbeOnly (if c then m1 else m2) := by
  rwa [if_pos hc]

theorem probeOnly_ite_neg {α : Type} (c : Prop) [Decidable c] {m1 m2 : M α}
    (hc : ¬c) (h2 : ProbeOnly m2) : ProbeOnly (if c then m1 else m2) := by
  rwa [if_neg hc]

theorem probeOnly_pure {α : Type} (a : α) : ProbeOnly (pure a : M α) := by
  intro s c hc
  simp [pure_def, M.pure] at hc

theorem probeOnly_emit {c : Cmd} (h : c.isMutating = false) : ProbeOnly (emit c) := by
  intro s c2 hc2
  simp [emit] at hc2
  rwa [hc2]

theorem probeOnly_setMsg (m : String) : ProbeOnly (setMsg m) := by
  intro s c hc
  simp [setMsg] at hc

theorem probeOnly_setChanged (b : Bool) : ProbeOnly (setChanged b) := by
  intro s c hc
  simp [setChanged] at hc

theorem probeOnly_setHandler (h : Option String) : ProbeOnly (setHandler h) := by
  intro s c hc
  simp [setHandler] at hc

theorem probeOnly_exitJson {α : Type} : ProbeOnly (exitJson : M α) := by
  intro s c hc
  simp [exitJson] at hc

theorem probeOnly_failJson {α : Type} : ProbeOnly (failJson : M α) := by
  intro s c hc
  simp [failJson] at hc

theorem neverOk_exitJson {α : Type} : NeverOk (exitJson : M α) := by
  intro s
  exact ⟨Term.exited s.res, rfl⟩

theorem neverOk_failJson {α : Type} : NeverOk (failJson : M α) := by
  intro s
  exact ⟨Term.failed s.res, rfl⟩

theorem neverOk_bind {α β : Type} {x : M α} {f : α → M β}
    (hf : ∀ a, NeverOk (f a)) : NeverOk (x >>= f) := by
  intro s
  rcases hx : x s with ⟨s1, t1, r⟩
  cases r with
  | ok a =>
    obtain ⟨e, he⟩ := hf a s1
    rw [bind_ok hx]
    exact ⟨e, he⟩
  | error e =>
    rw [bind_err hx]
    exact ⟨e, rfl⟩

theorem neverOk_ite {α : Type} (c : Prop) [Decidable c] {m1 m2 : M α}
    (h1 : NeverOk m1) (h2 : NeverOk m2) : NeverOk (if c then m1 else m2) := by
  by_cases h : c
  · rwa [if_pos h]
  · rwa [if_neg h]

/-! ## The probing functions issue only read-only commands -/

theorem probeOnly_get_current_user_name (env : Env) :
    ProbeOnly (get_current_user_name env) := by
  unfold get_current_user_name
  exact probeOnly_bind (probeOnly_emit rfl) (fun _ => probeOnly_pure _)

theorem probeOnly_get_aur_package_info (env : Env) (pkg : String) :
    ProbeOnly (get_aur_package_info env pkg) := by
  unfold get_aur_package_info
  exact probeOnly_bind (probeOnly_emit rfl) (fun _ => probeOnly_pure _)

theorem probeOnly_is_aur_package (env : Env) (pkg : String) :
    ProbeOnly (is_aur_package env pkg) := by
  unfold is_aur_package
  exact probeOnly_bind (probeOnly_get_aur_package_info env pkg) (fun _ => probeOnly_pure _)

theorem probeOnly_is_official_package (env : Env) (pkg : String) :
    ProbeOnly (is_official_package env pkg) := by
  unfold is_official_package
  exact probeOnly_bind (probeOnly_emit rfl) (fun _ => probeOnly_pure _)

theorem probeOnly_extract_packages (env : Env) (grp : String) :
    ProbeOnly (extract_packages env grp) := by
  unfold extract_packages
  exact probeOnly_bind (probeOnly_emit rfl) (fun _ => probeOnly_pure _)

theorem probeOnly_group_packages_loop (env : Env) (p : Params) :
    ∀ (ns : List String) (acc : List String × List String × List String),
      ProbeOnly (group_packages_loop env p ns acc) := by
  intro ns
  induction ns with
  | nil =>
    intro acc
    unfold group_packages_loop
    exact probeOnly_pure _
  | cons n rest ih =>
    intro acc
    unfold group_packages_loop
    apply probeOnly_ite
    · exact ih acc
    apply probeOnly_ite
    · exact ih _
    apply probeOnly_bind (probeOnly_is_aur_package env n)
    intro aur
    apply probeOnly_ite
    · exact ih _
    apply probeOnly_bind (probeOnly_is_official_package env n)
    intro official
    apply probeOnly_ite
    · apply probeOnly_bind (probeOnly_extract_packages env n)
      intro ex
      exact ih _
    · apply probeOnly_bind (probeOnly_setMsg _)
      intro _
      exact probeOnly_failJson

theorem probeOnly_group_packages (env : Env) (p : Params) (names : List String) :
    ProbeOnly (group_packages env p names) := by
  unfold group_packages
  apply probeOnly_ite
  · exact probeOnly_group_packages_loop env p names _
  · exact probeOnly_pure _

theorem probeOnly_is_package_installed (env : Env) (pkg : String) :
    ProbeOnly (is_package_installed env pkg) := by
  unfold is_package_installed
  apply probeOnly_bind _ (fun _ => probeOnly_pure _)
  apply probeOnly_emit
  by_cases h : True
  · cases hb : (true : Bool) <;> rfl
  · exact absurd trivial h

theorem probeOnly_get_package_version (env : Env) (pkg : String) (remote : Bool) :
    ProbeOnly (get_package_version env pkg remote) := by
  unfold get_package_version
  apply probeOnly_bind _ (fun _ => probeOnly_pure _)
  apply probeOnly_emit
  cases remote <;> rfl

theorem probeOnly_get_aur_package_version (env : Env) (pkg : String) :
    ProbeOnly (get_aur_package_version env pkg) := by
  unfold get_aur_package_version
  apply probeOnly_bind (probeOnly_get_aur_package_info env pkg)
  intro info
  apply probeOnly_ite
  · exact probeOnly_pure _
  · exact probeOnly_pure _

theorem probeOnly_get_package_details (env : Env) (p : Params) (pkg : String)
    (aur_package : Bool) : ProbeOnly (get_package_details env p pkg aur_package) := by
  unfold get_package_details
  apply probeOnly_bind (probeOnly_is_package_installed env pkg)
  intro inst
  apply probeOnly_ite
  · apply probeOnly_bind (probeOnly_get_package_version env pkg false)
    intro version
    apply probeOnly_bind
    · apply probeOnly_ite
      · exact probeOnly_get_aur_package_version env pkg
      · exact probeOnly_get_package_version env pkg true
    · intro remote
      cases remote
      · exact probeOnly_pure _
      · exact probeOnly_pure _
  · exact probeOnly_pure _

theorem probeOnly_return_name_result (p : Params) (n : Nat) (single check : Bool) :
    ProbeOnly (return_name_result p n single check) := by
  unfold return_name_result
  apply probeOnly_bind
  · apply probeOnly_ite
    · exact probeOnly_bind (probeOnly_setChanged _) (fun _ => probeOnly_setMsg _)
    · exact probeOnly_setMsg _
  · intro _
    exact probeOnly_exitJson

theorem neverOk_return_name_result (p : Params) (n : Nat) (single check : Bool) :
    NeverOk (return_name_result p n single check) := by
  unfold return_name_result
  exact neverOk_bind (fun _ => neverOk_exitJson)

theorem probeOnly_collect_details_loop (env : Env) (p : Params) (aur_package : Bool) :
    ∀ ns : List String, ProbeOnly (collect_details_loop env p aur_package ns) := by
  intro ns
  induction ns with
  | nil =>
    unfold collect_details_loop
    exact probeOnly_pure _
  | cons pkg rest ih =>
    unfold collect_details_loop
    apply probeOnly_bind (probeOnly_get_package_details env p pkg aur_package)
    intro d
    apply probeOnly_bind ih
    intro ds
    exact probeOnly_pure _

theorem probeOnly_collect_local_details_loop (env : Env) (p : Params) :
    ∀ ns : List String, ProbeOnly (collect_local_details_loop env p ns) := by
  intro ns
  induction ns with
  | nil =>
    unfold collect_local_details_loop
    exact probeOnly_pure _
  | cons pkg rest ih =>
    unfold collect_local_details_loop
    apply probeOnly_bind (probeOnly_get_package_details env p _ false)
    intro d
    apply probeOnly_bind ih
    intro ds
    exact probeOnly_pure _

theorem probeOnly_run_name_check_mode (env : Env) (p : Params)
    (packages aur_packages local_packages : List String) :
    ProbeOnly (run_name_check_mode env p packages aur_packages local_packages) := by
  unfold run_name_check_mode
  apply probeOnly_bind (probeOnly_collect_details_loop env p false packages)
  intro d1
  apply probeOnly_bind
  · apply probeOnly_ite
    · apply probeOnly_bind (probeOnly_collect_details_loop env p true aur_packages)
      intro d2
      apply probeOnly_bind (probeOnly_collect_local_details_loop env p local_packages)
      intro d3
      exact probeOnly_pure _
    · exact probeOnly_pure _
  · intro rest
    exact probeOnly_return_name_result p _ _ _

theorem neverOk_run_name_check_mode (env : Env) (p : Params)
    (packages aur_packages local_packages : List String) :
    NeverOk (run_name_check_mode env p packages aur_packages local_packages) := by
  unfold run_name_check_mode
  apply neverOk_bind
  intro d1
  apply neverOk_bind
  intro rest
  exact neverOk_return_name_result p _ _ _

theorem probeOnly_return_update_cache_result (submsg : String) :
    ProbeOnly (return_update_cache_result submsg) := by
  unfold return_update_cache_result
  apply probeOnly_bind (probeOnly_setChanged _)
  intro _
  apply probeOnly_bind (probeOnly_setMsg _)
  intro _
  exact probeOnly_exitJson

theorem probeOnly_return_upgrade_result (submsg : String) :
    ProbeOnly (return_upgrade_result submsg) := by
  unfold return_upgrade_result
  apply probeOnly_bind (probeOnly_setChanged _)
  intro _
  apply probeOnly_bind (probeOnly_setMsg _)
  intro _
  exact probeOnly_exitJson

theorem probeOnly_update_cache_stage_check (env : Env) (p : Params) :
    ProbeOnly (update_cache_stage env p true) := by
  unfold update_cache_stage
  apply probeOnly_ite
  · show ProbeOnly (if (!(!p.name.isEmpty || p.upgrade)) = true then
      return_update_cache_result "would be" else pure ())
    apply probeOnly_ite
    · exact probeOnly_return_update_cache_result _
    · exact probeOnly_pure _
  · exact probeOnly_pure _

theorem probeOnly_upgrade_stage_check (env : Env) (p : Params) :
    ProbeOnly (upgrade_stage env p true) := by
  unfold upgrade_stage
  apply probeOnly_ite
  · show ProbeOnly (return_upgrade_result "would be")
    exact probeOnly_return_upgrade_result _
  · exact probeOnly_pure _

theorem probeOnly_name_stage_check (env : Env) (p : Params) :
    ProbeOnly (name_stage env p true) := by
  unfold name_stage
  apply probeOnly_ite
  · apply probeOnly_bind (probeOnly_group_packages env p p.name)
    intro triple
    rcases triple with ⟨pk, au, lo⟩
    apply probeOnly_bind
    · apply probeOnly_ite
      · apply probeOnly_bind (probeOnly_setMsg _)
        intro _
        exact probeOnly_failJson
      · exact probeOnly_pure _
    intro _
    apply probeOnly_bind_neverOk
    · show ProbeOnly (run_name_check_mode env p pk au lo)
      exact probeOnly_run_name_check_mode env p pk au lo
    · show NeverOk (run_name_check_mode env p pk au lo)
      exact neverOk_run_name_check_mode env p pk au lo
  · exact probeOnly_exitJson

/-- In check mode the whole `run_module` body issues only probing commands. -/
theorem probeOnly_run_moduleM_check (env : Env) (p : Params) :
    ProbeOnly (run_moduleM env p true) := by
  unfold run_moduleM
  apply probeOnly_bind (probeOnly_update_cache_stage_check env p)
  intro _
  apply probeOnly_bind (probeOnly_upgrade_stage_check env p)
  intro _
  exact probeOnly_name_stage_check env p

/-! ## Closure lemmas for FailOnly, HKeep and EHP -/

theorem failOnly_bind {α β : Type} {x : M α} {f : α → M β}
    (hx : FailOnly x) (hf : ∀ a, FailOnly (f a)) : FailOnly (x >>= f) := by
  intro s e he
  rcases hx' : x s with ⟨s1, t1, r⟩
  cases r with
  | ok a =>
    rw [bind_ok hx'] at he
    exact hf a s1 e he
  | error e2 =>
    rw [bind_err hx'] at he
    simp at he
    subst he
    exact hx s e2 (by rw [hx'])

theorem failOnly_ite {α : Type} (c : Prop) [Decidable c] {m1 m2 : M α}
    (h1 : FailOnly m1) (h2 : FailOnly m2) : FailOnly (if c then m1 else m2) := by
  by_cases h : c
  · rwa [if_pos h]
  · rwa [if_neg h]

theorem failOnly_pure {α : Type} (a : α) : FailOnly (pure a : M α) := by
  intro s e he
  simp [pure_def, M.pure] at he

theorem failOnly_emit (c : Cmd) : FailOnly (emit c) := by
  intro s e he
  simp [emit] at he

theorem failOnly_setMsg (m : String) : FailOnly (setMsg m) := by
  intro s e he
  simp [setMsg] at he

theorem failOnly_setChanged (b : Bool) : FailOnly (setChanged b) := by
  intro s e he
  simp [setChanged] at he

theorem failOnly_setHandler (h : Option String) : FailOnly (setHandler h) := by
  intro s e he
  simp [setHandler] at he

theorem failOnly_getCwd : FailOnly getCwd := by
  intro s e he
  simp [getCwd] at he

theorem failOnly_osChdir (d : String) : FailOnly (osChdir d) := by
  intro s e he
  simp [osChdir] at he

theorem failOnly_failJson {α : Type} : FailOnly (failJson : M α) := by
  intro s e he
  simp [failJson] at he
  exact ⟨s.res, he.symm⟩

theorem hkeep_bind {α β : Type} {x : M α} {f : α → M β}
    (hx : HKeep x) (hf : ∀ a, HKeep (f a)) : HKeep (x >>= f) := by
  intro s
  rcases hx' : x s with ⟨s1, t1, r⟩
  cases r with
  | ok a =>
    rw [bind_ok hx']
    have h1 : s1.res.handler = s.res.handler := by
      have := (hx s).1
      rw [hx'] at this
      exact this
    constructor
    · rw [(hf a s1).1, h1]
    · intro e he
      rw [(hf a s1).2 e he, h1]
  | error e2 =>
    rw [bind_err hx']
    have h1 : s1.res.handler = s.res.handler := by
      have := (hx s).1
      rw [hx'] at this
      exact this
    constructor
    · exact h1
    · intro e he
      simp at he
      subst he
      have := (hx s).2 e2 (by rw [hx'])
      exact this

theorem hkeep_ite {α : Type} (c : Prop) [Decidable c] {m1 m2 : M α}
    (h1 : HKeep m1) (h2 : HKeep m2) : HKeep (if c then m1 else m2) := by
  by_cases h : c
  · rwa [if_pos h]
  · rwa [if_neg h]

theorem hkeep_pure {α : Type} (a : α) : HKeep (pure a : M α) := by
  intro s
  exact ⟨rfl, by intro e he; simp [pure_def, M.pure] at he⟩

theorem hkeep_emit (c : Cmd) : HKeep (emit c) := by
  intro s
  exact ⟨rfl, by intro e he; simp [emit] at he⟩

theorem hkeep_setMsg (m : String) : HKeep (setMsg m) := by
  intro s
  exact ⟨rfl, by intro e he; simp [setMsg] at he⟩

theorem hkeep_setChanged (b : Bool) : HKeep (setChanged b) := by
  intro s
  exact ⟨rfl, by intro e he; simp [setChanged] at he⟩

theorem hkeep_getCwd : HKeep getCwd := by
  intro s
  exact ⟨rfl, by intro e he; simp [getCwd] at he⟩

theorem hkeep_osChdir (d : String) : HKeep (osChdir d) := by
  intro s
  exact ⟨rfl, by intro e he; simp [osChdir] at he⟩

theorem hkeep_exitJson {α : Type} : HKeep (exitJson : M α) := by
  intro s
  refine ⟨rfl, ?_⟩
  intro e he
  simp [exitJson] at he
  subst he
  rfl

theorem hkeep_failJson {α : Type} : HKeep (failJson : M α) := by
  intro s
  refine ⟨rfl, ?_⟩
  intro e he
  simp [failJson] at he
  subst he
  rfl

theorem okVal_any {α : Type} (m : M α) : OkVal (fun _ => True) m := by
  intro s s2 t a _
  trivial

theorem okVal_pure {α : Type} {Q : α → Prop} {a : α} (h : Q a) :
    OkVal Q (pure a : M α) := by
  intro s s2 t b hb
  simp [pure_def, M.pure] at hb
  exact hb.2.2 ▸ h

theorem okVal_bind {α β : Type} {Qx : α → Prop} {Q : β → Prop}
    {x : M α} {f : α → M β}
    (hx : OkVal Qx x) (hf : ∀ a, Qx a → OkVal Q (f a)) : OkVal Q (x >>= f) := by
  intro s s2 t b hb
  rcases hx' : x s with ⟨s1, t1, r⟩
  cases r with
  | ok a =>
    rw [bind_ok hx'] at hb
    rcases hf' : f a s1 with ⟨s3, t3, r3⟩
    rw [hf'] at hb
    have hr3 : r3 = Except.ok b := congrArg (fun z => z.2.2) hb
    exact hf a (hx s s1 t1 a hx') s1 s3 t3 b (by rw [hf', hr3])
  | error e =>
    rw [bind_err hx'] at hb
    simp at hb

theorem okVal_ite {α : Type} (c : Prop) [Decidable c] {Q : α → Prop}
    {m1 m2 : M α} (h1 : OkVal Q m1) (h2 : OkVal Q m2) :
    OkVal Q (if c then m1 else m2) := by
  by_cases h : c
  · rwa [if_pos h]
  · rwa [if_neg h]

theorem failOnly_exitHandler {α : Type} {P : Option String → Prop} {m : M α}
    (h : FailOnly m) : ExitHandler P m := by
  intro s r he
  obtain ⟨r2, hr2⟩ := h s (Term.exited r) he
  exact absurd hr2 (by simp)

theorem exitHandler_bind {α β : Type} {P : Option String → Prop}
    {x : M α} {f : α → M β}
    (hx : ExitHandler P x) (hf : ∀ a, ExitHandler P (f a)) :
    ExitHandler P (x >>= f) := by
  intro s r he
  rcases hx' : x s with ⟨s1, t1, rx⟩
  cases rx with
  | ok a =>
    rw [bind_ok hx'] at he
    exact hf a s1 r he
  | error e2 =>
    rw [bind_err hx'] at he
    simp at he
    subst he
    exact hx s r (by rw [hx'])

theorem exitHandler_bind_okVal {α β : Type} {P : Option String → Prop}
    {Q : α → Prop} {x : M α} {f : α → M β}
    (hx : FailOnly x) (hq : OkVal Q x)
    (hf : ∀ a, Q a → ExitHandler P (f a)) : ExitHandler P (x >>= f) := by
  intro s r he
  rcases hx' : x s with ⟨s1, t1, rx⟩
  cases rx with
  | ok a =>
    rw [bind_ok hx'] at he
    exact hf a (hq s s1 t1 a hx') s1 r he
  | error e2 =>
    rw [bind_err hx'] at he
    simp at he
    subst he
    obtain ⟨r2, hr2⟩ := hx s (Term.exited r) (by rw [hx'])
    exact absurd hr2 (by simp)

theorem exitHandler_ite {α : Type} (c : Prop) [Decidable c]
    {P : Option String → Prop} {m1 m2 : M α}
    (h1 : ExitHandler P m1) (h2 : ExitHandler P m2) :
    ExitHandler P (if c then m1 else m2) := by
  by_cases h : c
  · rwa [if_pos h]
  · rwa [if_neg h]

/-! ## Application equations for the state-oracle functions -/

theorem is_package_installed_app (env : Env) (pkg : String) (s : St) :
    is_package_installed env pkg s =
      (s, [Cmd.queryInstalled pkg], Except.ok (env.installed pkg)) := rfl

theorem get_package_version_app (env : Env) (pkg : String) (remote : Bool) (s : St) :
    get_package_version env pkg remote s =
      (s, [if remote then Cmd.queryRemoteVersion pkg else Cmd.queryLocalVersion pkg],
       Except.ok (if remote then env.remoteVersion pkg else env.localVersion pkg)) := rfl

theorem get_aur_package_info_app (env : Env) (pkg : String) (s : St) :
    get_aur_package_info env pkg s =
      (s, [Cmd.aurInfo pkg],
       Except.ok ⟨env.aurResultcount pkg, env.aurName pkg, env.aurUrlPath pkg,
                  env.aurVersionRaw pkg⟩) := rfl

theorem get_aur_package_version_app (env : Env) (pkg : String) (s : St) :
    get_aur_package_version env pkg s =
      (s, [Cmd.aurInfo pkg],
       Except.ok (if env.aurResultcount pkg > 0 then
          some (last_colon_field (env.aurVersionRaw pkg)) else none)) := by
  unfold get_aur_package_version
  rw [bind_ok (get_aur_package_info_app env pkg s)]
  by_cases h : env.aurResultcount pkg > 0
  · simp [h, pure_def, M.pure]
  · simp [h, pure_def, M.pure]

theorem get_package_details_app_skip (env : Env) (p : Params) (pkg : String)
    (aur_package : Bool) (s : St)
    (h : (decide (p.state = PkgState.latest) && env.installed pkg) = false) :
    get_package_details env p pkg aur_package s =
      (s, [Cmd.queryInstalled pkg],
       Except.ok ⟨pkg, env.installed pkg, env.installed pkg⟩) := by
  unfold get_package_details
  rw [bind_ok (is_package_installed_app env pkg s)]
  simp [h, pure_def, M.pure]

theorem get_package_details_app_latest (env : Env) (p : Params) (pkg : String)
    (aur_package : Bool) (s : St)
    (h : (decide (p.state = PkgState.latest) && env.installed pkg) = true) :
    get_package_details env p pkg aur_package s =
      (s, [Cmd.queryInstalled pkg, Cmd.queryLocalVersion pkg]
          ++ [if aur_package then Cmd.aurInfo pkg else Cmd.queryRemoteVersion pkg],
       Except.ok ⟨pkg, env.installed pkg,
         match (if aur_package then
                  (if env.aurResultcount pkg > 0 then
                    some (last_colon_field (env.aurVersionRaw pkg)) else none)
                else env.remoteVersion pkg) with
         | some rv => decide (env.localVersion pkg = some rv)
         | none => env.installed pkg⟩) := by
  unfold get_package_details
  rw [bind_ok (is_package_installed_app env pkg s)]
  simp only [h, if_true]
  cases aur_package with
  | false =>
    simp only [Bool.false_eq_true, if_false]
    rw [bind_ok (get_package_version_app env pkg false s)]
    rw [bind_ok (get_package_version_app env pkg true s)]
    cases hrv : env.remoteVersion pkg <;> simp [pure_def, M.pure]
  | true =>
    simp only [if_true]
    rw [bind_ok (get_package_version_app env pkg false s)]
    rw [bind_ok (get_aur_package_version_app env pkg s)]
    by_cases hrc : env.aurResultcount pkg > 0 <;> simp [hrc, pure_def, M.pure]

/-! ## Application equations for the classification functions -/

theorem get_current_user_name_app (env : Env) (s : St) :
    get_current_user_name env s = (s, [Cmd.whoami], Except.ok env.user) := rfl

theorem is_aur_package_app (env : Env) (pkg : String) (s : St) :
    is_aur_package env pkg s =
      (s, [Cmd.aurInfo pkg], Except.ok (decide (env.aurResultcount pkg > 0))) := rfl

theorem is_official_package_app (env : Env) (pkg : String) (s : St) :
    is_official_package env pkg s =
      (s, [Cmd.searchOfficial pkg], Except.ok (env.officialOk pkg)) := rfl

theorem extract_packages_app (env : Env) (grp : String) (s : St) :
    extract_packages env grp s =
      (s, [Cmd.expandGroup grp], Except.ok (env.groupMembers grp)) := rfl

theorem Cmd.pkgChange_eq_false_of_not_mutating {c : Cmd} (h : c.isMutating = false) :
    c.isPkgChange = false := by
  cases c <;> first | rfl | exact absurd h (by simp [Cmd.isMutating])

/-- The classification loop agrees with its pure projection on success, it
leaves the state untouched, and it issues only probing queries. -/
theorem group_packages_loop_ok (env : Env) (p : Params) :
    ∀ (ns : List String) (acc v), classifyFold env p ns acc = some v →
      ∀ s, ∃ t, group_packages_loop env p ns acc s = (s, t, Except.ok v)
        ∧ ∀ c ∈ t, c.isMutating = false := by
  intro ns
  induction ns with
  | nil =>
    intro acc v h s
    unfold classifyFold at h
    injection h with h
    subst h
    exact ⟨[], by simp [group_packages_loop, pure_def, M.pure], by simp⟩
  | cons n rest ih =>
    intro acc v h s
    unfold classifyFold classifyStep at h
    unfold group_packages_loop
    by_cases hn : n = ""
    · rw [if_pos hn] at h ⊢
      exact ih acc v h s
    · rw [if_neg hn] at h ⊢
      by_cases hl : is_local_package n = true
      · rw [if_pos hl] at h ⊢
        exact ih _ v h s
      · rw [if_neg hl] at h ⊢
        by_cases ha : (decide (env.aurResultcount n > 0) && !p.force) = true
        · rw [if_pos ha] at h
          obtain ⟨t, ht, hp⟩ := ih _ v h s
          refine ⟨Cmd.aurInfo n :: t, ?_, ?_⟩
          · rw [bind_ok (is_aur_package_app env n s)]
            simp only [ha, if_true, ht]
            simp
          · intro c hc
            rcases List.mem_cons.mp hc with hc | hc
            · subst hc; rfl
            · exact hp c hc
        · rw [if_neg ha] at h
          by_cases ho : env.officialOk n = true
          · rw [if_pos ho] at h
            obtain ⟨t, ht, hp⟩ := ih _ v h s
            refine ⟨Cmd.aurInfo n :: Cmd.searchOfficial n :: Cmd.expandGroup n :: t, ?_, ?_⟩
            · rw [bind_ok (is_aur_package_app env n s)]
              simp only [ha, Bool.false_eq_true, if_false]
              rw [bind_ok (is_official_package_app env n s)]
              simp only [ho, if_true]
              rw [bind_ok (extract_packages_app env n s)]
              simp only [ht]
              simp
            · intro c hc
              rcases List.mem_cons.mp hc with hc | hc
              · subst hc; rfl
              rcases List.mem_cons.mp hc with hc | hc
              · subst hc; rfl
              rcases List.mem_cons.mp hc with hc | hc
              · subst hc; rfl
              · exact hp c hc
          · rw [if_neg ho] at h
            exact absurd h (by simp)

/-- The classification loop agrees with its pure projection on failure: the
terminal outcome is the "unavailable package" failure. -/
theorem group_packages_loop_none (env : Env) (p : Params) :
    ∀ (ns : List String) (acc), classifyFold env p ns acc = none →
      ∀ s, ∃ t, group_packages_loop env p ns acc s =
        ({ s with res := { s.res with msg := "unavailable package has been detected" } }, t,
         Except.error (Term.failed
           { s.res with msg := "unavailable package has been detected" }))
        ∧ ∀ c ∈ t, c.isMutating = false := by
  intro ns
  induction ns with
  | nil =>
    intro acc h s
    exact absurd h (by simp [classifyFold])
  | cons n rest ih =>
    intro acc h s
    unfold classifyFold classifyStep at h
    unfold group_packages_loop
    by_cases hn : n = ""
    · rw [if_pos hn] at h ⊢
      exact ih acc h s
    · rw [if_neg hn] at h ⊢
      by_cases hl : is_local_package n = true
      · rw [if_pos hl] at h ⊢
        exact ih _ h s
      · rw [if_neg hl] at h ⊢
        by_cases ha : (decide (env.aurResultcount n > 0) && !p.force) = true
        · rw [if_pos ha] at h
          obtain ⟨t, ht, hp⟩ := ih _ h s
          refine ⟨Cmd.aurInfo n :: t, ?_, ?_⟩
          · rw [bind_ok (is_aur_package_app env n s)]
            simp only [ha, if_true, ht]
            simp
          · intro c hc
            rcases List.mem_cons.mp hc with hc | hc
            · subst hc; rfl
            · exact hp c hc
        · rw [if_neg ha] at h
          by_cases ho : env.officialOk n = true
          · rw [if_pos ho] at h
            obtain ⟨t, ht, hp⟩ := ih _ h s
            refine ⟨Cmd.aurInfo n :: Cmd.searchOfficial n :: Cmd.expandGroup n :: t, ?_, ?_⟩
            · rw [bind_ok (is_aur_package_app env n s)]
              simp only [ha, Bool.false_eq_true, if_false]
              rw [bind_ok (is_official_package_app env n s)]
              simp only [ho, if_true]
              rw [bind_ok (extract_packages_app env n s)]
              simp only [ht]
              simp
            · intro c hc
              rcases List.mem_cons.mp hc with hc | hc
              · subst hc; rfl
              rcases List.mem_cons.mp hc with hc | hc
              · subst hc; rfl
              rcases List.mem_cons.mp hc with hc | hc
              · subst hc; rfl
              · exact hp c hc
          · rw [if_neg ho] at h
            refine ⟨[Cmd.aurInfo n, Cmd.searchOfficial n], ?_, by simp [Cmd.isMutating]⟩
            rw [bind_ok (is_aur_package_app env n s)]
            simp only [ha, Bool.false_eq_true, if_false]
            rw [bind_ok (is_official_package_app env n s)]
            simp only [ho, Bool.false_eq_true, if_false]
            simp [bind_def, M.bind, setMsg, failJson]

/-- `group_packages` agrees with `classifyBuckets` on success. -/
theorem group_packages_ok (env : Env) (p : Params) {names : List String}
    {v : List String × List String × List String}
    (h : classifyBuckets env p names = some v) :
    ∀ s, ∃ t, group_packages env p names s = (s, t, Except.ok v)
      ∧ ∀ c ∈ t, c.isMutating = false := by
  intro s
  unfold classifyBuckets at h
  unfold group_packages
  by_cases hst : p.state ≠ PkgState.absent
  · rw [if_pos hst] at h ⊢
    exact group_packages_loop_ok env p names _ v h s
  · rw [if_neg hst] at h ⊢
    injection h with h
    subst h
    exact ⟨[], by simp [pure_def, M.pure], by simp⟩

/-- `group_packages` agrees with `classifyBuckets` on failure. -/
theorem group_packages_none (env : Env) (p : Params) {names : List String}
    (hst : p.state ≠ PkgState.absent)
    (h : classifyBuckets env p names = none) :
    ∀ s, ∃ t, group_packages env p names s =
      ({ s with res := { s.res with msg := "unavailable package has been detected" } }, t,
       Except.error (Term.failed
         { s.res with msg := "unavailable package has been detected" }))
      ∧ ∀ c ∈ t, c.isMutating = false := by
  intro s
  unfold classifyBuckets at h
  unfold group_packages
  rw [if_pos hst] at h ⊢
  exact group_packages_loop_none env p names _ h s

/-! ## Pure facts about the classification fold -/

theorem classifyFold_nil (env : Env) (p : Params) (acc) :
    classifyFold env p [] acc = some acc := rfl

theorem classifyFold_cons (env : Env) (p : Params) (n : String) (rest : List String) (acc) :
    classifyFold env p (n :: rest) acc =
      (match classifyStep env p n acc with
       | some acc2 => classifyFold env p rest acc2
       | none => none) := rfl

theorem classifyFold_append (env : Env) (p : Params) :
    ∀ (xs ys : List String) (acc),
      classifyFold env p (xs ++ ys) acc =
        (match classifyFold env p xs acc with
         | some a2 => classifyFold env p ys a2
         | none => none) := by
  intro xs
  induction xs with
  | nil => intro ys acc; simp [classifyFold]
  | cons x xs ih =>
    intro ys acc
    rw [List.cons_append, classifyFold_cons, classifyFold_cons]
    cases hs : classifyStep env p x acc
    · simp
    · simp [ih]

theorem classifyFold_none_of_mem (env : Env) (p : Params) {n : String}
    (hstep : ∀ acc, classifyStep env p n acc = none) :
    ∀ ns, n ∈ ns → ∀ acc, classifyFold env p ns acc = none := by
  intro ns
  induction ns with
  | nil =>
    intro h
    exact absurd h (List.not_mem_nil n)
  | cons m ms ih =>
    intro hmem acc
    unfold classifyFold
    rcases List.mem_cons.mp hmem with he | hm
    · subst he
      rw [hstep acc]
    · cases hs : classifyStep env p m acc
      · rfl
      · exact ih hm _

/-- Folding a list of plain official packages (each non-empty, non-local,
without AUR match, official, with empty group expansion) appends exactly that
list to the official bucket. -/
theorem classifyFold_plain (env : Env) (p : Params) :
    ∀ ms : List String,
      (∀ m ∈ ms, m ≠ "" ∧ is_local_package m = false ∧ env.aurResultcount m = 0
        ∧ env.officialOk m = true ∧ env.groupMembers m = []) →
      ∀ acc, classifyFold env p ms acc = some (acc.1 ++ ms, acc.2.1, acc.2.2) := by
  intro ms
  induction ms with
  | nil =>
    intro _ acc
    simp [classifyFold]
  | cons m ms ih =>
    intro hmem acc
    obtain ⟨h0, hl, ha, ho, hg⟩ := hmem m (by simp)
    have hstep : classifyStep env p m acc = some (acc.1 ++ [m], acc.2.1, acc.2.2) := by
      have hb : (decide (env.aurResultcount m > 0) && !p.force) = false := by simp [ha]
      simp [classifyStep, h0, hl, hb, ho, hg]
    rw [classifyFold_cons, hstep]
    show classifyFold env p ms (acc.1 ++ [m], acc.2.1, acc.2.2) =
      some (acc.1 ++ m :: ms, acc.2.1, acc.2.2)
    rw [ih (fun x hx => hmem x (List.mem_cons_of_mem m hx)) _]
    simp

/-! ## Application equations for handler selection and the early stages -/

theorem get_handler_app_root (env : Env) (henv : env.user = "root") (s : St) :
    get_handler env s = (s, [Cmd.whoami], Except.ok env.pacman) := by
  unfold get_handler
  rw [bind_ok (get_current_user_name_app env s)]
  simp [henv, pure_def, M.pure]

theorem get_handler_app_wrapper (env : Env) {w : String} (henv : env.user ≠ "root")
    (hw : env.wrapper = some w) (s : St) :
    get_handler env s = (s, [Cmd.whoami], Except.ok w) := by
  unfold get_handler
  rw [bind_ok (get_current_user_name_app env s)]
  simp [henv, hw, get_pacman_wrapper, bind_def, M.bind, pure_def, M.pure]

theorem get_handler_app_nowrapper (env : Env) (henv : env.user ≠ "root")
    (hw : env.wrapper = none) (s : St) :
    get_handler env s = (s, [Cmd.whoami], Except.ok env.pacman) := by
  unfold get_handler
  rw [bind_ok (get_current_user_name_app env s)]
  simp [henv, hw, get_pacman_wrapper, bind_def, M.bind, pure_def, M.pure]

/-- A successful database refresh by root (handler pacman). -/
theorem refresh_ok_root (env : Env) (p : Params) (henv : env.user = "root")
    (hok : ∀ c, env.cmdOk c = true) (s : St) :
    ∃ l, refresh_package_databases env p s =
      (s, [Cmd.whoami, Cmd.whoami, Cmd.refreshDb l], Except.ok ()) := by
  refine ⟨env.pacman :: (["-S", "-y"] ++ (if p.force then ["-y"] else [])
    ++ (if !(!p.name.isEmpty || p.upgrade) then split_extra_args p.extra_args else [])), ?_⟩
  unfold refresh_package_databases
  rw [bind_ok (get_handler_app_root env henv s)]
  simp only []
  rw [bind_ok (get_current_user_name_app env s)]
  simp [henv, hok, emit, setMsg, failJson, bind_def, M.bind, pure_def, M.pure]

/-- A successful database refresh by a non-root user through a wrapper. -/
theorem refresh_ok_wrapper (env : Env) (p : Params) {w : String}
    (henv : env.user ≠ "root") (hw : env.wrapper = some w) (hwp : w ≠ env.pacman)
    (hok : ∀ c, env.cmdOk c = true) (s : St) :
    ∃ l, refresh_package_databases env p s =
      (s, [Cmd.whoami, Cmd.whoami, Cmd.refreshDb l], Except.ok ()) := by
  refine ⟨w :: (["-S", "-y"] ++ (if p.force then ["-y"] else [])
    ++ (if !(!p.name.isEmpty || p.upgrade) then split_extra_args p.extra_args else [])), ?_⟩
  unfold refresh_package_databases
  rw [bind_ok (get_handler_app_wrapper env henv hw s)]
  simp only []
  rw [bind_ok (get_current_user_name_app env s)]
  simp [hwp, hok, emit, setMsg, failJson, bind_def, M.bind, pure_def, M.pure]

/-- With a non-empty name list the update-cache stage (outside check mode)
either refreshes and continues or does nothing, leaving the state unchanged
and issuing no package-changing command. -/
theorem update_cache_stage_ok (env : Env) (p : Params) (hname : p.name ≠ [])
    (hrefresh : p.update_cache = true → ∀ s, ∃ l, refresh_package_databases env p s =
      (s, [Cmd.whoami, Cmd.whoami, Cmd.refreshDb l], Except.ok ())) (s : St) :
    ∃ t, update_cache_stage env p false s = (s, t, Except.ok ())
      ∧ ∀ c ∈ t, c.isPkgChange = false := by
  unfold update_cache_stage
  have hne : p.name.isEmpty = false := by
    cases hnm : p.name with
    | nil => exact absurd hnm hname
    | cons a l => rfl
  have hguard : (!(!p.name.isEmpty || p.upgrade)) = false := by simp [hne]
  by_cases hc : p.update_cache = true
  · obtain ⟨l, hl⟩ := hrefresh hc s
    refine ⟨[Cmd.whoami, Cmd.whoami, Cmd.refreshDb l], ?_, by simp [Cmd.isPkgChange]⟩
    simp only [hc, if_true, Bool.not_false, if_pos]
    rw [bind_ok hl]
    simp [hguard, pure_def, M.pure]
  · refine ⟨[], ?_, by simp⟩
    simp [hc, pure_def, M.pure]

/-- Without the upgrade flag the upgrade stage is a no-op. -/
theorem upgrade_stage_skip (env : Env) (p : Params) (ck : Bool)
    (hup : p.upgrade = false) (s : St) :
    upgrade_stage env p ck s = (s, [], Except.ok ()) := by
  unfold upgrade_stage
  rw [if_neg (by simp [hup])]
  rfl

/-- `install_packages_with_aur_support` invoked by root fails immediately. -/
theorem install_packages_with_aur_support_root (env : Env) (p : Params)
    (pk au : List String) (henv : env.user = "root") (s : St) :
    install_packages_with_aur_support env p pk au s =
      ({ s with res := { s.res with msg := "could not install aur packages as a root" } },
       [Cmd.whoami],
       Except.error (Term.failed
         { s.res with msg := "could not install aur packages as a root" })) := by
  unfold install_packages_with_aur_support
  rw [bind_ok (get_current_user_name_app env s)]
  simp [henv, setMsg, failJson, bind_def, M.bind, pure_def, M.pure]

/-- `install_packages` with a non-empty AUR bucket invoked by root fails with
the privilege message before issuing any command beyond the identity query. -/
theorem install_packages_aur_root (env : Env) (p : Params)
    (pk au lo : List String) (henv : env.user = "root") (hau : au ≠ []) (s : St) :
    install_packages env p pk au lo s =
      ({ s with res := { s.res with msg := "could not install aur packages as a root" } },
       [Cmd.whoami],
       Except.error (Term.failed
         { s.res with msg := "could not install aur packages as a root" })) := by
  unfold install_packages
  have hcond : (!au.isEmpty) = true := by
    cases au with
    | nil => exact absurd rfl hau
    | cons a l => rfl
  simp only [hcond, if_true]
  rw [bind_err (install_packages_with_aur_support_root env p pk au henv s)]

/-- `install_packages` with an empty AUR bucket invoked by a non-root user
fails with the privilege message before issuing any command beyond the
identity query. -/
theorem install_packages_official_nonroot (env : Env) (p : Params)
    (pk lo : List String) (henv : env.user ≠ "root") (s : St) :
    install_packages env p pk [] lo s =
      ({ s with res := { s.res with msg :=
          "could not install neither packages from the official repositories nor local packages as a non-root user" } },
       [Cmd.whoami],
       Except.error (Term.failed
         { s.res with msg :=
           "could not install neither packages from the official repositories nor local packages as a non-root user" })) := by
  unfold install_packages
  simp only [List.isEmpty_nil, Bool.not_true, Bool.false_eq_true, if_false]
  rw [bind_ok (get_current_user_name_app env s)]
  simp [henv, setMsg, failJson, bind_def, M.bind, pure_def, M.pure]

/-- A non-empty name list that classifies without an origin-mix conflict
drives the name stage (outside check mode, non-removal) into
`install_packages`, with only probing queries issued before it. -/
theorem name_stage_to_install (env : Env) (p : Params)
    {pk au lo : List String} (hname : p.name ≠ [])
    (hcb : classifyBuckets env p p.name = some (pk, au, lo))
    (hmix : (!au.isEmpty && !lo.isEmpty) = false)
    (hst : p.state ≠ PkgState.absent) (s : St) :
    ∃ tG, (∀ c ∈ tG, c.isMutating = false)
      ∧ name_stage env p false s =
        ((install_packages env p pk au lo s).1,
         tG ++ (install_packages env p pk au lo s).2.1,
         (install_packages env p pk au lo s).2.2) := by
  have hcond : (!p.name.isEmpty) = true := by
    cases hnm : p.name with
    | nil => exact absurd hnm hname
    | cons a l => rfl
  obtain ⟨tG, hG, hpG⟩ := group_packages_ok env p hcb s
  refine ⟨tG, hpG, ?_⟩
  unfold name_stage
  simp only [hcond, if_true]
  rw [bind_ok hG]
  rcases hI : install_packages env p pk au lo s with ⟨sI, tI, rI⟩
  simp [bind_def, M.bind, pure_def, M.pure, hmix, hst, hI]

/-- A name list classifying into non-empty AUR and local buckets makes the
name stage fail with the origin-mixing message right after classification. -/
theorem name_stage_mixing (env : Env) (p : Params)
    {pk au lo : List String} (hname : p.name ≠ [])
    (hcb : classifyBuckets env p p.name = some (pk, au, lo))
    (hmix : (!au.isEmpty && !lo.isEmpty) = true) (s : St) :
    ∃ tG, (∀ c ∈ tG, c.isMutating = false)
      ∧ name_stage env p false s =
        ({ s with res := { s.res with msg := "could not install aur packages mixed with local packages" } },
         tG,
         Except.error (Term.failed
           { s.res with msg := "could not install aur packages mixed with local packages" })) := by
  have hcond : (!p.name.isEmpty) = true := by
    cases hnm : p.name with
    | nil => exact absurd hnm hname
    | cons a l => rfl
  obtain ⟨tG, hG, hpG⟩ := group_packages_ok env p hcb s
  refine ⟨tG, hpG, ?_⟩
  unfold name_stage
  simp only [hcond, if_true]
  rw [bind_ok hG]
  simp [bind_def, M.bind, pure_def, M.pure, hmix, setMsg, failJson]

/-- Assembling a full run whose name stage terminates: the update-cache
stage succeeds leaving the state unchanged, the upgrade stage is skipped, and
the terminal outcome of the name stage is the outcome of the run. -/
theorem run_module_assemble (env : Env) (p : Params) (cwd0 : String)
    {tA tN : List Cmd} {sN : St} {e : Term}
    (hup : p.upgrade = false)
    (hA : update_cache_stage env p false { cwd := cwd0, res := initial_result } =
      ({ cwd := cwd0, res := initial_result }, tA, Except.ok ()))
    (hN : name_stage env p false { cwd := cwd0, res := initial_result } =
      (sN, tN, Except.error e)) :
    run_module env p false cwd0 = (sN, tA ++ tN, e) := by
  unfold run_module run_moduleM
  rw [bind_ok hA]
  rw [bind_ok (upgrade_stage_skip env p false hup { cwd := cwd0, res := initial_result })]
  rw [hN]
  rfl

/-- Deriving a non-empty name list from a non-empty classification bucket. -/
theorem name_ne_nil_of_bucket (env : Env) (p : Params)
    {pk au lo : List String}
    (hcb : classifyBuckets env p p.name = some (pk, au, lo)) (hau : au ≠ []) :
    p.name ≠ [] := by
  intro h
  rw [h] at hcb
  have hemp : classifyBuckets env p [] = some ([], [], []) := by
    unfold classifyBuckets
    by_cases hs2 : p.state ≠ PkgState.absent
    · rw [if_pos hs2]; rfl
    · rw [if_neg hs2]; rfl
  rw [hemp] at hcb
  injection hcb with hcb
  have := congrArg (fun t => t.2.1) hcb
  simp at this
  exact hau this

/-! ## The install path never exits successfully without a handler -/

theorem failOnly_get_current_user_name (env : Env) :
    FailOnly (get_current_user_name env) := by
  unfold get_current_user_name
  exact failOnly_bind (failOnly_emit _) (fun _ => failOnly_pure _)

theorem failOnly_get_pacman_wrapper (env : Env) :
    FailOnly (get_pacman_wrapper env) := by
  unfold get_pacman_wrapper
  exact failOnly_pure _

theorem failOnly_get_handler (env : Env) : FailOnly (get_handler env) := by
  unfold get_handler
  apply failOnly_bind (failOnly_get_current_user_name env)
  intro user
  apply failOnly_ite
  · apply failOnly_bind (failOnly_get_pacman_wrapper env)
    intro o
    cases o
    · exact failOnly_pure _
    · exact failOnly_pure _
  · exact failOnly_pure _

theorem failOnly_refresh_package_databases (env : Env) (p : Params) :
    FailOnly (refresh_package_databases env p) := by
  unfold refresh_package_databases
  apply failOnly_bind (failOnly_get_handler env)
  intro handler
  apply failOnly_bind (failOnly_get_current_user_name env)
  intro user
  apply failOnly_bind
  · apply failOnly_ite
    · exact failOnly_bind (failOnly_setMsg _) (fun _ => failOnly_failJson)
    · exact failOnly_pure _
  intro _
  apply failOnly_bind (failOnly_emit _)
  intro _
  apply failOnly_ite
  · exact failOnly_bind (failOnly_setMsg _) (fun _ => failOnly_failJson)
  · exact failOnly_pure _

theorem failOnly_get_aur_package_info (env : Env) (pkg : String) :
    FailOnly (get_aur_package_info env pkg) := by
  unfold get_aur_package_info
  exact failOnly_bind (failOnly_emit _) (fun _ => failOnly_pure _)

theorem failOnly_is_aur_package (env : Env) (pkg : String) :
    FailOnly (is_aur_package env pkg) := by
  unfold is_aur_package
  exact failOnly_bind (failOnly_get_aur_package_info env pkg) (fun _ => failOnly_pure _)

theorem failOnly_is_official_package (env : Env) (pkg : String) :
    FailOnly (is_official_package env pkg) := by
  unfold is_official_package
  exact failOnly_bind (failOnly_emit _) (fun _ => failOnly_pure _)

theorem failOnly_extract_packages (env : Env) (grp : String) :
    FailOnly (extract_packages env grp) := by
  unfold extract_packages
  exact failOnly_bind (failOnly_emit _) (fun _ => failOnly_pure _)

theorem failOnly_group_packages_loop (env : Env) (p : Params) :
    ∀ ns acc, FailOnly (group_packages_loop env p ns acc) := by
  intro ns
  induction ns with
  | nil =>
    intro acc
    unfold group_packages_loop
    exact failOnly_pure _
  | cons n rest ih =>
    intro acc
    unfold group_packages_loop
    apply failOnly_ite
    · exact ih acc
    apply failOnly_ite
    · exact ih _
    apply failOnly_bind (failOnly_is_aur_package env n)
    intro aur
    apply failOnly_ite
    · exact ih _
    apply failOnly_bind (failOnly_is_official_package env n)
    intro official
    apply failOnly_ite
    · apply failOnly_bind (failOnly_extract_packages env n)
      intro ex
      exact ih _
    · exact failOnly_bind (failOnly_setMsg _) (fun _ => failOnly_failJson)

theorem failOnly_group_packages (env : Env) (p : Params) (names : List String) :
    FailOnly (group_packages env p names) := by
  unfold group_packages
  apply failOnly_ite
  · exact failOnly_group_packages_loop env p names _
  · exact failOnly_pure _

theorem failOnly_is_package_installed (env : Env) (pkg : String) :
    FailOnly (is_package_installed env pkg) := by
  unfold is_package_installed
  exact failOnly_bind (failOnly_emit _) (fun _ => failOnly_pure _)

theorem failOnly_get_package_version (env : Env) (pkg : String) (remote : Bool) :
    FailOnly (get_package_version env pkg remote) := by
  unfold get_package_version
  exact failOnly_bind (failOnly_emit _) (fun _ => failOnly_pure _)

theorem failOnly_get_aur_package_version (env : Env) (pkg : String) :
    FailOnly (get_aur_package_version env pkg) := by
  unfold get_aur_package_version
  apply failOnly_bind (failOnly_get_aur_package_info env pkg)
  intro info
  apply failOnly_ite
  · exact failOnly_pure _
  · exact failOnly_pure _

theorem failOnly_get_package_details (env : Env) (p : Params) (pkg : String)
    (aur_package : Bool) : FailOnly (get_package_details env p pkg aur_package) := by
  unfold get_package_details
  apply failOnly_bind (failOnly_is_package_installed env pkg)
  intro inst
  apply failOnly_ite
  · apply failOnly_bind (failOnly_get_package_version env pkg false)
    intro version
    apply failOnly_bind
    · apply failOnly_ite
      · exact failOnly_get_aur_package_version env pkg
      · exact failOnly_get_package_version env pkg true
    · intro remote
      cases remote
      · exact failOnly_pure _
      · exact failOnly_pure _
  · exact failOnly_pure _

theorem failOnly_select_install_loop (env : Env) (p : Params)
    (aur_package local_resources : Bool) :
    ∀ ns, FailOnly (select_install_loop env p aur_package local_resources ns) := by
  intro ns
  induction ns with
  | nil =>
    unfold select_install_loop
    exact failOnly_pure _
  | cons pkg rest ih =>
    unfold select_install_loop
    apply failOnly_bind (failOnly_get_package_details env p _ aur_package)
    intro d
    apply failOnly_bind ih
    intro sel
    exact failOnly_pure _

theorem failOnly_run_install_packages_command (env : Env) (p : Params)
    (cmd packages : List String) :
    FailOnly (run_install_packages_command env p cmd packages) := by
  unfold run_install_packages_command
  apply failOnly_bind (failOnly_emit _)
  intro _
  apply failOnly_ite
  · exact failOnly_bind (failOnly_setMsg _) (fun _ => failOnly_failJson)
  · exact failOnly_pure _

theorem failOnly_install_packages_with_pacman (env : Env) (p : Params)
    (packages : List String) (local_resources : Bool) :
    FailOnly (install_packages_with_pacman env p packages local_resources) := by
  unfold install_packages_with_pacman
  apply failOnly_bind (failOnly_select_install_loop env p false local_resources packages)
  intro sel
  apply failOnly_bind
  · apply failOnly_ite
    · exact failOnly_run_install_packages_command env p _ _
    · exact failOnly_pure _
  intro _
  exact failOnly_pure _

theorem failOnly_install_packages_with_wrapper (env : Env) (p : Params)
    (packages aur_packages : List String) (wrapper : String) :
    FailOnly (install_packages_with_wrapper env p packages aur_packages wrapper) := by
  unfold install_packages_with_wrapper
  apply failOnly_bind (failOnly_select_install_loop env p false false packages)
  intro s1
  apply failOnly_bind (failOnly_select_install_loop env p true false aur_packages)
  intro s2
  apply failOnly_bind
  · apply failOnly_ite
    · exact failOnly_run_install_packages_command env p _ _
    · exact failOnly_pure _
  intro _
  exact failOnly_pure _

theorem failOnly_download_aur_package (file_name url_path : String) :
    FailOnly (download_aur_package file_name url_path) := by
  unfold download_aur_package
  exact failOnly_emit _

theorem failOnly_install_aur_packages_with_makepkg_loop (env : Env) (p : Params)
    (cmd : List String) :
    ∀ ns n, FailOnly (install_aur_packages_with_makepkg_loop env p cmd ns n) := by
  intro ns
  induction ns with
  | nil =>
    intro n
    unfold install_aur_packages_with_makepkg_loop
    exact failOnly_pure _
  | cons pkg rest ih =>
    intro n
    unfold install_aur_packages_with_makepkg_loop
    apply failOnly_bind (failOnly_get_package_details env p pkg true)
    intro d
    apply failOnly_ite
    · apply failOnly_bind (failOnly_get_aur_package_info env pkg)
      intro info
      apply failOnly_bind
      · apply failOnly_ite
        · exact failOnly_bind (failOnly_setMsg _) (fun _ => failOnly_failJson)
        · exact failOnly_pure _
      intro _
      apply failOnly_bind (failOnly_osChdir _)
      intro _
      apply failOnly_bind (failOnly_download_aur_package _ _)
      intro _
      apply failOnly_bind (failOnly_osChdir _)
      intro _
      apply failOnly_bind failOnly_getCwd
      intro dir
      apply failOnly_bind (failOnly_emit _)
      intro _
      apply failOnly_bind
      · apply failOnly_ite
        · exact failOnly_bind (failOnly_setMsg _) (fun _ => failOnly_failJson)
        · exact failOnly_pure _
      intro _
      exact ih _
    · exact ih _

theorem failOnly_install_aur_packages_with_makepkg (env : Env) (p : Params)
    (packages : List String) :
    FailOnly (install_aur_packages_with_makepkg env p packages) := by
  unfold install_aur_packages_with_makepkg
  apply failOnly_bind failOnly_getCwd
  intro cur
  apply failOnly_bind (failOnly_install_aur_packages_with_makepkg_loop env p _ packages 0)
  intro k
  apply failOnly_bind (failOnly_osChdir _)
  intro _
  exact failOnly_pure _

theorem failOnly_install_packages_with_aur_support (env : Env) (p : Params)
    (packages aur_packages : List String) :
    FailOnly (install_packages_with_aur_support env p packages aur_packages) := by
  unfold install_packages_with_aur_support
  apply failOnly_bind (failOnly_get_current_user_name env)
  intro user
  apply failOnly_bind
  · apply failOnly_ite
    · exact failOnly_bind (failOnly_setMsg _) (fun _ => failOnly_failJson)
    · exact failOnly_pure _
  intro _
  apply failOnly_bind (failOnly_get_handler env)
  intro handler
  apply failOnly_ite
  · apply failOnly_bind (failOnly_install_packages_with_wrapper env p packages aur_packages handler)
    intro k
    exact failOnly_pure _
  · apply failOnly_bind
    · apply failOnly_ite
      · exact failOnly_bind (failOnly_setMsg _) (fun _ => failOnly_failJson)
      · exact failOnly_pure _
    intro _
    apply failOnly_bind
    · apply failOnly_ite
      · exact failOnly_bind (failOnly_setMsg _) (fun _ => failOnly_failJson)
      · exact failOnly_pure _
    intro _
    apply failOnly_bind (failOnly_install_aur_packages_with_makepkg env p aur_packages)
    intro k
    exact failOnly_pure _

/-- Every `exit_json` of `return_name_result` carries the handler that was in
the result dictionary when it was called. -/
theorem hkeep_return_name_result (p : Params) (n : Nat) (single check : Bool) :
    HKeep (return_name_result p n single check) := by
  unfold return_name_result
  apply hkeep_bind
  · apply hkeep_ite
    · exact hkeep_bind (hkeep_setChanged _) (fun _ => hkeep_setMsg _)
    · exact hkeep_setMsg _
  · intro _
    exact hkeep_exitJson

/-- The values the install path can store in `result['handler']`: the pacman
path, the wrapper chosen by `get_handler`, or the `get_bin_path('makepkg')`
lookup result — which is null when makepkg is absent. -/
def ResolvedHandler (env : Env) (h : Option String) : Prop :=
  h = some env.pacman ∨ h = env.wrapper ∨ h = env.makepkgPath

theorem okVal_get_pacman_wrapper (env : Env) :
    OkVal (fun o => o = env.wrapper) (get_pacman_wrapper env) := by
  unfold get_pacman_wrapper
  exact okVal_pure rfl

/-- `get_handler` returns either the pacman path or an installed wrapper. -/
theorem okVal_get_handler (env : Env) :
    OkVal (fun h => h = env.pacman ∨ env.wrapper = some h) (get_handler env) := by
  unfold get_handler
  refine okVal_bind (okVal_any (get_current_user_name env)) ?_
  intro user _
  apply okVal_ite
  · refine okVal_bind (okVal_get_pacman_wrapper env) ?_
    intro o ho
    cases o with
    | none => exact okVal_pure (Or.inl rfl)
    | some w => exact okVal_pure (Or.inr ho.symm)
  · exact okVal_pure (Or.inl rfl)

/-- The handler value returned by `install_packages_with_aur_support` is a
resolved handler: a wrapper path or the makepkg lookup result. -/
theorem okVal_install_packages_with_aur_support (env : Env) (p : Params)
    (packages aur_packages : List String) :
    OkVal (fun pair => ResolvedHandler env pair.1)
      (install_packages_with_aur_support env p packages aur_packages) := by
  unfold install_packages_with_aur_support
  refine okVal_bind (okVal_any _) ?_
  intro user _
  refine okVal_bind (okVal_any _) ?_
  intro _ _
  refine okVal_bind (okVal_get_handler env) ?_
  intro handler hh
  apply okVal_ite
  · refine okVal_bind (okVal_any _) ?_
    intro n _
    apply okVal_pure
    rcases hh with hh | hh
    · exact Or.inl (by rw [hh])
    · exact Or.inr (Or.inl hh.symm)
  · refine okVal_bind (okVal_any _) ?_
    intro _ _
    refine okVal_bind (okVal_any _) ?_
    intro _ _
    refine okVal_bind (okVal_any _) ?_
    intro n _
    exact okVal_pure (Or.inr (Or.inr rfl))

/-- `install_packages` stores the resolved handler (line 796) before its
final report: every successful exit it produces carries that value — null
exactly when the makepkg lookup failed on the fakeroot build path. -/
theorem exitHandler_install_packages (env : Env) (p : Params)
    (packages aur_packages local_packages : List String) :
    ExitHandler (ResolvedHandler env)
      (install_packages env p packages aur_packages local_packages) := by
  have htail : ∀ (h : Option String) (n : Nat) (single : Bool),
      ResolvedHandler env h →
      ExitHandler (ResolvedHandler env)
        (setHandler h >>= fun _ => return_name_result p n single false) := by
    intro h n single hres s r he
    have hset : setHandler h s =
        ({ s with res := { s.res with handler := h } }, [], Except.ok ()) := rfl
    rw [bind_ok hset] at he
    have hk := (hkeep_return_name_result p n single false
      { s with res := { s.res with handler := h } }).2 (Term.exited r) he
    have hr : r.handler = h := by simpa [Term.res] using hk
    rw [hr]
    exact hres
  unfold install_packages
  apply exitHandler_ite
  · refine exitHandler_bind_okVal
      (failOnly_install_packages_with_aur_support env p _ _)
      (okVal_install_packages_with_aur_support env p _ _) ?_
    intro pair hq
    rcases pair with ⟨h, k⟩
    exact htail h k _ hq
  · refine exitHandler_bind (failOnly_exitHandler (failOnly_get_current_user_name env)) ?_
    intro user
    refine exitHandler_bind ?_ ?_
    · apply failOnly_exitHandler
      apply failOnly_ite
      · exact failOnly_bind (failOnly_setMsg _) (fun _ => failOnly_failJson)
      · exact failOnly_pure _
    intro _
    refine exitHandler_bind ?_ ?_
    · apply failOnly_exitHandler
      apply failOnly_ite
      · exact failOnly_install_packages_with_pacman env p _ _
      · exact failOnly_pure _
    intro n1
    refine exitHandler_bind ?_ ?_
    · apply failOnly_exitHandler
      apply failOnly_ite
      · exact failOnly_install_packages_with_pacman env p _ _
      · exact failOnly_pure _
    intro n2
    exact htail (some env.pacman) _ _ (Or.inl rfl)

/-! ## Termination and handler-preservation of the run stages -/

theorem neverOk_remove_packages (env : Env) (p : Params) (packages : List String) :
    NeverOk (remove_packages env p packages) := by
  unfold remove_packages
  exact neverOk_bind (fun n => neverOk_return_name_result p n _ _)

theorem neverOk_install_packages (env : Env) (p : Params)
    (pk au lo : List String) : NeverOk (install_packages env p pk au lo) := by
  unfold install_packages
  apply neverOk_ite
  · apply neverOk_bind
    intro pair
    rcases pair with ⟨h, k⟩
    exact neverOk_bind (fun _ => neverOk_return_name_result p k _ _)
  · apply neverOk_bind
    intro user
    apply neverOk_bind
    intro _
    apply neverOk_bind
    intro n1
    apply neverOk_bind
    intro n2
    exact neverOk_bind (fun _ => neverOk_return_name_result p _ _ _)

theorem neverOk_name_stage (env : Env) (p : Params) (ck : Bool) :
    NeverOk (name_stage env p ck) := by
  unfold name_stage
  apply neverOk_ite
  · apply neverOk_bind
    intro triple
    rcases triple with ⟨pk, au, lo⟩
    apply neverOk_bind
    intro _
    apply neverOk_bind
    intro _
    apply neverOk_ite
    · exact neverOk_remove_packages env p pk
    · exact neverOk_install_packages env p pk au lo
  · exact neverOk_exitJson

theorem neverOk_run_moduleM (env : Env) (p : Params) (ck : Bool) :
    NeverOk (run_moduleM env p ck) := by
  unfold run_moduleM
  exact neverOk_bind (fun _ => neverOk_bind (fun _ => neverOk_name_stage env p ck))

theorem exitHandler_update_cache_stage (env : Env) (p : Params)
    (P : Option String → Prop) (hname : p.name ≠ []) :
    ExitHandler P (update_cache_stage env p false) := by
  unfold update_cache_stage
  have hne : p.name.isEmpty = false := by
    cases hnm : p.name with
    | nil => exact absurd hnm hname
    | cons a l => rfl
  have hguard : ¬((!(!p.name.isEmpty || p.upgrade)) = true) := by simp [hne]
  apply exitHandler_ite
  · apply exitHandler_ite
    · refine exitHandler_bind (failOnly_exitHandler (failOnly_refresh_package_databases env p)) ?_
      intro _
      rw [if_neg hguard]
      exact failOnly_exitHandler (failOnly_pure _)
    · rw [if_neg hguard]
      exact failOnly_exitHandler (failOnly_pure _)
  · exact failOnly_exitHandler (failOnly_pure _)

theorem exitHandler_upgrade_stage (env : Env) (p : Params)
    (P : Option String → Prop) (hup : p.upgrade = false) :
    ExitHandler P (upgrade_stage env p false) := by
  intro s r he
  rw [upgrade_stage_skip env p false hup s] at he
  simp at he

theorem exitHandler_name_stage (env : Env) (p : Params) (hname : p.name ≠ [])
    (hst : p.state ≠ PkgState.absent) :
    ExitHandler (ResolvedHandler env) (name_stage env p false) := by
  unfold name_stage
  have hcond : (!p.name.isEmpty) = true := by
    cases hnm : p.name with
    | nil => exact absurd hnm hname
    | cons a l => rfl
  rw [if_pos hcond]
  refine exitHandler_bind (failOnly_exitHandler (failOnly_group_packages env p p.name)) ?_
  intro triple
  rcases triple with ⟨pk, au, lo⟩
  refine exitHandler_bind ?_ ?_
  · apply failOnly_exitHandler
    apply failOnly_ite
    · exact failOnly_bind (failOnly_setMsg _) (fun _ => failOnly_failJson)
    · exact failOnly_pure _
  intro _
  refine exitHandler_bind ?_ ?_
  · rw [if_neg (by simp : ¬((false : Bool) = true))]
    exact failOnly_exitHandler (failOnly_pure _)
  intro _
  rw [if_neg hst]
  exact exitHandler_install_packages env p pk au lo

theorem exitHandler_run_moduleM (env : Env) (p : Params) (hname : p.name ≠ [])
    (hst : p.state ≠ PkgState.absent) (hup : p.upgrade = false) :
    ExitHandler (ResolvedHandler env) (run_moduleM env p false) := by
  unfold run_moduleM
  refine exitHandler_bind (exitHandler_update_cache_stage env p _ hname) ?_
  intro _
  refine exitHandler_bind (exitHandler_upgrade_stage env p _ hup) ?_
  intro _
  exact exitHandler_name_stage env p hname hst

theorem hkeep_get_current_user_name (env : Env) :
    HKeep (get_current_user_name env) := by
  unfold get_current_user_name
  exact hkeep_bind (hkeep_emit _) (fun _ => hkeep_pure _)

theorem hkeep_get_pacman_wrapper (env : Env) : HKeep (get_pacman_wrapper env) := by
  unfold get_pacman_wrapper
  exact hkeep_pure _

theorem hkeep_get_handler (env : Env) : HKeep (get_handler env) := by
  unfold get_handler
  apply hkeep_bind (hkeep_get_current_user_name env)
  intro user
  apply hkeep_ite
  · apply hkeep_bind (hkeep_get_pacman_wrapper env)
    intro o
    cases o
    · exact hkeep_pure _
    · exact hkeep_pure _
  · exact hkeep_pure _

theorem hkeep_refresh_package_databases (env : Env) (p : Params) :
    HKeep (refresh_package_databases env p) := by
  unfold refresh_package_databases
  apply hkeep_bind (hkeep_get_handler env)
  intro handler
  apply hkeep_bind (hkeep_get_current_user_name env)
  intro user
  apply hkeep_bind
  · apply hkeep_ite
    · exact hkeep_bind (hkeep_setMsg _) (fun _ => hkeep_failJson)
    · exact hkeep_pure _
  intro _
  apply hkeep_bind (hkeep_emit _)
  intro _
  apply hkeep_ite
  · exact hkeep_bind (hkeep_setMsg _) (fun _ => hkeep_failJson)
  · exact hkeep_pure _

theorem hkeep_return_update_cache_result (submsg : String) :
    HKeep (return_update_cache_result submsg) := by
  unfold return_update_cache_result
  apply hkeep_bind (hkeep_setChanged _)
  intro _
  exact hkeep_bind (hkeep_setMsg _) (fun _ => hkeep_exitJson)

theorem hkeep_return_upgrade_result (submsg : String) :
    HKeep (return_upgrade_result submsg) := by
  unfold return_upgrade_result
  apply hkeep_bind (hkeep_setChanged _)
  intro _
  exact hkeep_bind (hkeep_setMsg _) (fun _ => hkeep_exitJson)

theorem hkeep_update_cache_stage (env : Env) (p : Params) (ck : Bool) :
    HKeep (update_cache_stage env p ck) := by
  unfold update_cache_stage
  apply hkeep_ite
  · apply hkeep_ite
    · apply hkeep_bind (hkeep_refresh_package_databases env p)
      intro _
      apply hkeep_ite
      · exact hkeep_return_update_cache_result _
      · exact hkeep_pure _
    · apply hkeep_ite
      · exact hkeep_return_update_cache_result _
      · exact hkeep_pure _
  · exact hkeep_pure _

theorem hkeep_upgrade_stage (env : Env) (p : Params) (ck : Bool)
    (hup : p.upgrade = false) : HKeep (upgrade_stage env p ck) := by
  unfold upgrade_stage
  rw [if_neg (by simp [hup])]
  exact hkeep_pure _

theorem hkeep_get_aur_package_info (env : Env) (pkg : String) :
    HKeep (get_aur_package_info env pkg) := by
  unfold get_aur_package_info
  exact hkeep_bind (hkeep_emit _) (fun _ => hkeep_pure _)

theorem hkeep_is_aur_package (env : Env) (pkg : String) :
    HKeep (is_aur_package env pkg) := by
  unfold is_aur_package
  exact hkeep_bind (hkeep_get_aur_package_info env pkg) (fun _ => hkeep_pure _)

theorem hkeep_is_official_package (env : Env) (pkg : String) :
    HKeep (is_official_package env pkg) := by
  unfold is_official_package
  exact hkeep_bind (hkeep_emit _) (fun _ => hkeep_pure _)

theorem hkeep_extract_packages (env : Env) (grp : String) :
    HKeep (extract_packages env grp) := by
  unfold extract_packages
  exact hkeep_bind (hkeep_emit _) (fun _ => hkeep_pure _)

theorem hkeep_group_packages_loop (env : Env) (p : Params) :
    ∀ ns acc, HKeep (group_packages_loop env p ns acc) := by
  intro ns
  induction ns with
  | nil =>
    intro acc
    unfold group_packages_loop
    exact hkeep_pure _
  | cons n rest ih =>
    intro acc
    unfold group_packages_loop
    apply hkeep_ite
    · exact ih acc
    apply hkeep_ite
    · exact ih _
    apply hkeep_bind (hkeep_is_aur_package env n)
    intro aur
    apply hkeep_ite
    · exact ih _
    apply hkeep_bind (hkeep_is_official_package env n)
    intro official
    apply hkeep_ite
    · apply hkeep_bind (hkeep_extract_packages env n)
      intro ex
      exact ih _
    · exact hkeep_bind (hkeep_setMsg _) (fun _ => hkeep_failJson)

theorem hkeep_group_packages (env : Env) (p : Params) (names : List String) :
    HKeep (group_packages env p names) := by
  unfold group_packages
  apply hkeep_ite
  · exact hkeep_group_packages_loop env p names _
  · exact hkeep_pure _

theorem hkeep_is_package_installed (env : Env) (pkg : String) :
    HKeep (is_package_installed env pkg) := by
  unfold is_package_installed
  exact hkeep_bind (hkeep_emit _) (fun _ => hkeep_pure _)

theorem hkeep_get_package_version (env : Env) (pkg : String) (remote : Bool) :
    HKeep (get_package_version env pkg remote) := by
  unfold get_package_version
  exact hkeep_bind (hkeep_emit _) (fun _ => hkeep_pure _)

theorem hkeep_get_aur_package_version (env : Env) (pkg : String) :
    HKeep (get_aur_package_version env pkg) := by
  unfold get_aur_package_version
  apply hkeep_bind (hkeep_get_aur_package_info env pkg)
  intro info
  apply hkeep_ite
  · exact hkeep_pure _
  · exact hkeep_pure _

theorem hkeep_get_package_details (env : Env) (p : Params) (pkg : String)
    (aur_package : Bool) : HKeep (get_package_details env p pkg aur_package) := by
  unfold get_package_details
  apply hkeep_bind (hkeep_is_package_installed env pkg)
  intro inst
  apply hkeep_ite
  · apply hkeep_bind (hkeep_get_package_version env pkg false)
    intro version
    apply hkeep_bind
    · apply hkeep_ite
      · exact hkeep_get_aur_package_version env pkg
      · exact hkeep_get_package_version env pkg true
    · intro remote
      cases remote
      · exact hkeep_pure _
      · exact hkeep_pure _
  · exact hkeep_pure _

theorem hkeep_collect_details_loop (env : Env) (p : Params) (aur_package : Bool) :
    ∀ ns, HKeep (collect_details_loop env p aur_package ns) := by
  intro ns
  induction ns with
  | nil =>
    unfold collect_details_loop
    exact hkeep_pure _
  | cons pkg rest ih =>
    unfold collect_details_loop
    apply hkeep_bind (hkeep_get_package_details env p pkg aur_package)
    intro d
    apply hkeep_bind ih
    intro ds
    exact hkeep_pure _

theorem hkeep_collect_local_details_loop (env : Env) (p : Params) :
    ∀ ns, HKeep (collect_local_details_loop env p ns) := by
  intro ns
  induction ns with
  | nil =>
    unfold collect_local_details_loop
    exact hkeep_pure _
  | cons pkg rest ih =>
    unfold collect_local_details_loop
    apply hkeep_bind (hkeep_get_package_details env p _ false)
    intro d
    apply hkeep_bind ih
    intro ds
    exact hkeep_pure _

theorem hkeep_run_name_check_mode (env : Env) (p : Params)
    (packages aur_packages local_packages : List String) :
    HKeep (run_name_check_mode env p packages aur_packages local_packages) := by
  unfold run_name_check_mode
  apply hkeep_bind (hkeep_collect_details_loop env p false packages)
  intro d1
  apply hkeep_bind
  · apply hkeep_ite
    · apply hkeep_bind (hkeep_collect_details_loop env p true aur_packages)
      intro d2
      apply hkeep_bind (hkeep_collect_local_details_loop env p local_packages)
      intro d3
      exact hkeep_pure _
    · exact hkeep_pure _
  · intro rest
    exact hkeep_return_name_result p _ _ _

theorem hkeep_remove_packages_loop (env : Env) (p : Params) :
    ∀ ns n, HKeep (remove_packages_loop env p ns n) := by
  intro ns
  induction ns with
  | nil =>
    intro n
    unfold remove_packages_loop
    exact hkeep_pure _
  | cons pkg rest ih =>
    intro n
    unfold remove_packages_loop
    apply hkeep_bind (hkeep_get_package_details env p pkg false)
    intro d
    apply hkeep_ite
    · apply hkeep_bind (hkeep_emit _)
      intro _
      apply hkeep_bind
      · apply hkeep_ite
        · exact hkeep_bind (hkeep_setMsg _) (fun _ => hkeep_failJson)
        · exact hkeep_pure _
      intro _
      exact ih _
    · exact ih _

theorem hkeep_remove_packages (env : Env) (p : Params) (packages : List String) :
    HKeep (remove_packages env p packages) := by
  unfold remove_packages
  apply hkeep_bind (hkeep_remove_packages_loop env p packages 0)
  intro n
  exact hkeep_return_name_result p n _ _

/-- In a removal run (state Absent) the name stage never touches
`result['handler']`. -/
theorem hkeep_name_stage_absent (env : Env) (p : Params) (ck : Bool)
    (hst : p.state = PkgState.absent) : HKeep (name_stage env p ck) := by
  unfold name_stage
  apply hkeep_ite
  · apply hkeep_bind (hkeep_group_packages env p p.name)
    intro triple
    rcases triple with ⟨pk, au, lo⟩
    apply hkeep_bind
    · apply hkeep_ite
      · exact hkeep_bind (hkeep_setMsg _) (fun _ => hkeep_failJson)
      · exact hkeep_pure _
    intro _
    apply hkeep_bind
    · apply hkeep_ite
      · exact hkeep_run_name_check_mode env p pk au lo
      · exact hkeep_pure _
    intro _
    rw [if_pos hst]
    exact hkeep_remove_packages env p pk
  · exact hkeep_exitJson

theorem hkeep_run_moduleM_absent (env : Env) (p : Params) (ck : Bool)
    (hup : p.upgrade = false) (hst : p.state = PkgState.absent) :
    HKeep (run_moduleM env p ck) := by
  unfold run_moduleM
  apply hkeep_bind (hkeep_update_cache_stage env p ck)
  intro _
  apply hkeep_bind (hkeep_upgrade_stage env p ck hup)
  intro _
  exact hkeep_name_stage_absent env p ck hst

/-! ## C8 -/

/-- C8: an install request (state Present/Latest) whose classification
contains at least one unofficial-repository package, run by the privileged
(root) identity, fails with the privilege message before any install, remove,
build or upgrade command is issued. -/
theorem C8_root_aur_install_privilege (env : Env) (p : Params) (cwd0 : String)
    (pk au : List String)
    (hup : p.upgrade = false)
    (hroot : env.user = "root")
    (hok : ∀ c, env.cmdOk c = true)
    (hcb : classifyBuckets env p p.name = some (pk, au, []))
    (hau : au ≠ [])
    (hst : p.state ≠ PkgState.absent) :
    ∃ t, run_module env p false cwd0 =
      ({ cwd := cwd0, res := ⟨false, "could not install aur packages as a root", none⟩ }, t,
       Term.failed ⟨false, "could not install aur packages as a root", none⟩)
      ∧ ∀ c ∈ t, c.isPkgChange = false := by
  have hname : p.name ≠ [] := name_ne_nil_of_bucket env p hcb hau
  obtain ⟨tA, hA, hpA⟩ := update_cache_stage_ok env p hname
    (fun _ => refresh_ok_root env p hroot hok) { cwd := cwd0, res := initial_result }
  have hmix : (!au.isEmpty && !(List.isEmpty ([] : List String))) = false := by simp
  obtain ⟨tG, hpG, hN⟩ := name_stage_to_install env p hname hcb hmix hst
    { cwd := cwd0, res := initial_result }
  rw [install_packages_aur_root env p pk au [] hroot hau
    { cwd := cwd0, res := initial_result }] at hN
  have hrun := run_module_assemble env p cwd0 hup hA hN
  refine ⟨tA ++ (tG ++ [Cmd.whoami]), ?_, ?_⟩
  · rw [hrun]
    simp [initial_result]
  · intro c hc
    rcases List.mem_append.mp hc with hc | hc
    · exact hpA c hc
    rcases List.mem_append.mp hc with hc | hc
    · exact Cmd.pkgChange_eq_false_of_not_mutating (hpG c hc)
    · rcases List.mem_singleton.mp hc with rfl
      rfl

/-! ## C10 -/

/-- C10: a non-dry-run install request (state Present/Latest) classifying
into only official and/or local packages (empty AUR bucket), run by a
non-privileged identity, fails with the privilege message before any install,
remove, build or upgrade command is issued — even when an AUR-capable wrapper
is installed on the host. -/
theorem C10_nonroot_official_install_privilege (env : Env) (p : Params) (cwd0 : String)
    (pk lo : List String)
    (hup : p.upgrade = false)
    (huser : env.user ≠ "root")
    (hok : ∀ c, env.cmdOk c = true)
    (hwrap : p.update_cache = true → ∃ w, env.wrapper = some w ∧ w ≠ env.pacman)
    (hcb : classifyBuckets env p p.name = some (pk, [], lo))
    (hname : p.name ≠ [])
    (hst : p.state ≠ PkgState.absent) :
    ∃ t, run_module env p false cwd0 =
      ({ cwd := cwd0, res :=
         ⟨false, "could not install neither packages from the official repositories nor local packages as a non-root user", none⟩ }, t,
       Term.failed
         ⟨false, "could not install neither packages from the official repositories nor local packages as a non-root user", none⟩)
      ∧ ∀ c ∈ t, c.isPkgChange = false := by
  have hrefresh : p.update_cache = true → ∀ s, ∃ l, refresh_package_databases env p s =
      (s, [Cmd.whoami, Cmd.whoami, Cmd.refreshDb l], Except.ok ()) := by
    intro hc s
    obtain ⟨w, hw, hwp⟩ := hwrap hc
    exact refresh_ok_wrapper env p huser hw hwp hok s
  obtain ⟨tA, hA, hpA⟩ := update_cache_stage_ok env p hname hrefresh
    { cwd := cwd0, res := initial_result }
  have hmix : (!(List.isEmpty ([] : List String)) && !lo.isEmpty) = false := by simp
  obtain ⟨tG, hpG, hN⟩ := name_stage_to_install env p hname hcb hmix hst
    { cwd := cwd0, res := initial_result }
  rw [install_packages_official_nonroot env p pk lo huser
    { cwd := cwd0, res := initial_result }] at hN
  have hrun := run_module_assemble env p cwd0 hup hA hN
  refine ⟨tA ++ (tG ++ [Cmd.whoami]), ?_, ?_⟩
  · rw [hrun]
    simp [initial_result]
  · intro c hc
    rcases List.mem_append.mp hc with hc | hc
    · exact hpA c hc
    rcases List.mem_append.mp hc with hc | hc
    · exact Cmd.pkgChange_eq_false_of_not_mutating (hpG c hc)
    · rcases List.mem_singleton.mp hc with rfl
      rfl

/-! ## C3 (amended) -/

/-- C3 as amended: a Present request classifying into both a non-empty
local-file bucket and a non-empty unofficial bucket fails with the
origin-mixing validation failure before any install, remove, build or
upgrade command is issued; however, when `update_cache` is set, the
(mutating) database refresh and the read-only classification queries are
issued first — not "zero commands". -/
theorem C3_mixing_rejected_before_install (env : Env) (p : Params) (cwd0 : String)
    (pk au lo : List String)
    (hst : p.state = PkgState.present)
    (hup : p.upgrade = false)
    (hroot : env.user = "root")
    (hok : ∀ c, env.cmdOk c = true)
    (hcb : classifyBuckets env p p.name = some (pk, au, lo))
    (hau : au ≠ []) (hlo : lo ≠ []) :
    ∃ t, run_module env p false cwd0 =
      ({ cwd := cwd0, res := ⟨false, "could not install aur packages mixed with local packages", none⟩ }, t,
       Term.failed ⟨false, "could not install aur packages mixed with local packages", none⟩)
      ∧ ∀ c ∈ t, c.isPkgChange = false := by
  have hname : p.name ≠ [] := name_ne_nil_of_bucket env p hcb hau
  obtain ⟨tA, hA, hpA⟩ := update_cache_stage_ok env p hname
    (fun _ => refresh_ok_root env p hroot hok) { cwd := cwd0, res := initial_result }
  have hmix : (!au.isEmpty && !lo.isEmpty) = true := by
    have h1 : au.isEmpty = false := by
      cases au with
      | nil => exact absurd rfl hau
      | cons a l => rfl
    have h2 : lo.isEmpty = false := by
      cases lo with
      | nil => exact absurd rfl hlo
      | cons a l => rfl
    simp [h1, h2]
  obtain ⟨tG, hpG, hN⟩ := name_stage_mixing env p hname hcb hmix
    { cwd := cwd0, res := initial_result }
  have hrun := run_module_assemble env p cwd0 hup hA hN
  refine ⟨tA ++ tG, ?_, ?_⟩
  · rw [hrun]
    simp [initial_result]
  · intro c hc
    rcases List.mem_append.mp hc with hc | hc
    · exact hpA c hc
    · exact Cmd.pkgChange_eq_false_of_not_mutating (hpG c hc)

/-! ## Concrete host environments used by witnesses and counterexamples -/

/-- A root host without wrapper: `foo` is an official installed package,
`aurfoo` an AUR package, every command succeeds. -/
def env0 : Env := {
  pacman := "/usr/bin/pacman"
  user := "root"
  wrapper := none
  hasFakeroot := true
  makepkgPath := some "/usr/bin/makepkg"
  aurResultcount := fun n => if n = "aurfoo" then 1 else 0
  aurName := fun _ => "aurfoo"
  aurUrlPath := fun _ => "/snapshot/aurfoo.tar.gz"
  aurVersionRaw := fun _ => "2.0-1"
  officialOk := fun n => n = "foo"
  groupMembers := fun _ => []
  installed := fun n => n = "foo"
  localVersion := fun _ => some "1.0-1"
  remoteVersion := fun _ => none
  tmpDir := fun _ => "/tmp/build"
  outdated := false
  cmdOk := fun _ => true }

/-- The same host with a non-root caller. -/
def envUser : Env := { env0 with user := "alice" }

/-- The non-root host with an AUR-capable wrapper installed. -/
def envUserWrap : Env := { envUser with wrapper := some "/usr/bin/yay" }

/-- The non-root host where the makepkg build command fails. -/
def envBuildFail : Env := { envUser with
  cmdOk := fun c => match c with | Cmd.makepkg _ _ => false | _ => true }

/-- The non-root host with no makepkg binary installed
(`module.get_bin_path('makepkg')` returns `None`) and `aurfoo` already
installed, so an install run needs no change. -/
def envNoMakepkg : Env := { envUser with
  makepkgPath := none
  installed := fun n => n = "foo" || n = "aurfoo" }

/-- Baseline parameters: install `foo`. -/
def params0 : Params := {
  name := ["foo"]
  state := PkgState.present
  upgrade := false
  update_cache := false
  force := false
  extra_args := "" }

/-- Parameters requesting a local package file together with an AUR package,
with a cache update in the same request. -/
def pMix : Params := { params0 with
  name := ["bar.pkg.tar.xz", "aurfoo"]
  update_cache := true }

/-- A host where `grp` is an official group expanding to `{a, b}`. -/
def envGrp : Env := { env0 with
  aurResultcount := fun _ => 0
  officialOk := fun n => n = "grp" || n = "a" || n = "b"
  groupMembers := fun n => if n = "grp" then ["a", "b"] else [] }

/-- Parameters requesting the group `grp`. -/
def paramsGrp : Params := { params0 with name := ["grp"] }

/-! ## C3/C8/C10 witnesses and counterexamples -/

/-- C3 counterexample: with `update_cache` set in the same request, the
mixing rejection does NOT precede every command — the mutating database
refresh is issued before the ValidationError surfaces. -/
theorem C3_counterexample :
    (run_module env0 pMix false "/home").2.2 =
      Term.failed ⟨false, "could not install aur packages mixed with local packages", none⟩
    ∧ Cmd.refreshDb ["/usr/bin/pacman", "-S", "-y"] ∈ (run_module env0 pMix false "/home").2.1
    ∧ (Cmd.refreshDb ["/usr/bin/pacman", "-S", "-y"]).isMutating = true := by
  decide

/-- C3 witness: the amended theorem applied to the concrete mixed request. -/
theorem C3_witness :
    (run_module env0 pMix false "/home").2.2 =
      Term.failed ⟨false, "could not install aur packages mixed with local packages", none⟩ := by
  obtain ⟨t, heq, _⟩ := C3_mixing_rejected_before_install env0 pMix "/home" []
    ["aurfoo"] ["bar.pkg.tar.xz"] rfl rfl rfl (fun c => rfl) (by decide) (by decide)
    (by decide)
  rw [heq]

/-- C8 witness: installing an AUR package as root fails with the privilege
message. -/
theorem C8_witness :
    (run_module env0 { params0 with name := ["aurfoo"] } false "/home").2.2 =
      Term.failed ⟨false, "could not install aur packages as a root", none⟩ := by
  obtain ⟨t, heq, _⟩ := C8_root_aur_install_privilege env0
    { params0 with name := ["aurfoo"] } "/home" [] ["aurfoo"] rfl rfl (fun c => rfl)
    (by decide) (by decide) (by decide)
  rw [heq]

/-- C10 witness: a non-root official-only install fails with the privilege
message even though a wrapper is installed and the cache refresh succeeded
through it. -/
theorem C10_witness :
    (run_module envUserWrap { params0 with update_cache := true } false "/home").2.2 =
      Term.failed ⟨false,
        "could not install neither packages from the official repositories nor local packages as a non-root user",
        none⟩ := by
  obtain ⟨t, heq, _⟩ := C10_nonroot_official_install_privilege envUserWrap
    { params0 with update_cache := true } "/home" ["foo"] [] rfl (by decide)
    (fun c => rfl) (fun _ => ⟨"/usr/bin/yay", rfl, by decide⟩) (by decide) (by decide)
    (by decide)
  rw [heq]

/-! ## C1 -/

/-- C1 counterexample: when the makepkg build of an AUR package fails, the
run terminates with the working directory still inside the scratch build
directory — it is NOT restored to its pre-run value before the error is
surfaced. -/
theorem C1_counterexample :
    (run_module envBuildFail { params0 with name := ["aurfoo"] } false "/home").2.2 =
      Term.failed ⟨false, "failed to install aurfoo: ", none⟩
    ∧ (run_module envBuildFail { params0 with name := ["aurfoo"] } false "/home").1.cwd =
        "/tmp/build/aurfoo"
    ∧ "/tmp/build/aurfoo" ≠ "/home" := by
  decide

/-- C1 as amended: `install_aur_packages_with_makepkg` restores the working
directory to its pre-run value only when it returns normally, i.e. when every
package was processed successfully; a failing build aborts the remaining
packages via a terminal failure without the restoring `os.chdir` (see the
counterexample). -/
theorem C1_cwd_restored_on_success (env : Env) (p : Params) (packages : List String)
    (s : St) (habs : is_absolute_path s.cwd = true) :
    ∀ (s2 : St) (t : List Cmd) (n : Nat),
      install_aur_packages_with_makepkg env p packages s = (s2, t, Except.ok n) →
      s2.cwd = s.cwd := by
  intro s2 t n h
  unfold install_aur_packages_with_makepkg at h
  rw [bind_ok (show getCwd s = (s, [], Except.ok s.cwd) from rfl)] at h
  rcases hloop : install_aur_packages_with_makepkg_loop env p
      (prepare_aur_package_install_command env p) packages 0 s with ⟨sL, tL, rL⟩
  cases rL with
  | error e =>
    rw [bind_err hloop] at h
    simp at h
  | ok k =>
    rw [bind_ok hloop] at h
    have hch : osChdir s.cwd sL = ({ sL with cwd := s.cwd }, [], Except.ok ()) := by
      simp [osChdir, habs]
    rw [bind_ok hch] at h
    have := congrArg (fun x => x.1.cwd) h
    simp at this
    exact this.symm

/-- C1 witness: a successful single-package AUR build run ends with the
working directory restored to its pre-run value. -/
theorem C1_witness :
    install_aur_packages_with_makepkg envUser { params0 with name := ["aurfoo"] } ["aurfoo"]
        ⟨"/home", initial_result⟩ =
      (⟨"/home", initial_result⟩,
       [Cmd.queryInstalled "aurfoo", Cmd.aurInfo "aurfoo",
        Cmd.aurDownload "aurfoo.tar.gz" "/snapshot/aurfoo.tar.gz",
        Cmd.makepkg ["/usr/bin/makepkg", "-s", "-i", "--needed", "--noconfirm", "--noprogressbar"]
          "/tmp/build/aurfoo"],
       Except.ok 1)
    ∧ (⟨"/home", initial_result⟩ : St).cwd = "/home" := by
  constructor
  · rfl
  · exact C1_cwd_restored_on_success envUser { params0 with name := ["aurfoo"] } ["aurfoo"]
      ⟨"/home", initial_result⟩ (by decide) ⟨"/home", initial_result⟩
      [Cmd.queryInstalled "aurfoo", Cmd.aurInfo "aurfoo",
       Cmd.aurDownload "aurfoo.tar.gz" "/snapshot/aurfoo.tar.gz",
       Cmd.makepkg ["/usr/bin/makepkg", "-s", "-i", "--needed", "--noconfirm", "--noprogressbar"]
         "/tmp/build/aurfoo"]
      1 (by rfl)

/-! ## C2 -/

/-- C2 counterexample: a removal run that issues a (mutating) removal command
still reports a null handler in its outcome record — the handler field is not
"the identifier of whichever handler executed mutating work". -/
theorem C2_counterexample :
    (run_module env0 { params0 with state := PkgState.absent } false "/home").2.2 =
      Term.exited ⟨true, "package has been removed", none⟩
    ∧ Cmd.remove ["/usr/bin/pacman", "-R", "--noconfirm", "--noprogressbar", "foo"] ∈
        (run_module env0 { params0 with state := PkgState.absent } false "/home").2.1
    ∧ (Cmd.remove ["/usr/bin/pacman", "-R", "--noconfirm", "--noprogressbar", "foo"]).isMutating
        = true := by
  decide

/-- C2 as amended: in a removal run (state Absent) the outcome record's
handler field is always null, even when removal commands were executed; in a
non-dry-run install run (state Present/Latest, non-empty name list) every
successful outcome is set unconditionally — whether or not any mutating work
was executed — to the resolved handler value: the pacman path, a wrapper
path, or the makepkg lookup result, which is itself null when makepkg is
absent from the host. -/
theorem C2_handler_reporting (env : Env) (p : Params) (check : Bool) (cwd0 : String)
    (hup : p.upgrade = false) :
    (p.state = PkgState.absent →
      ((run_module env p check cwd0).2.2).res.handler = none)
    ∧ (p.state ≠ PkgState.absent → check = false → p.name ≠ [] →
      ∀ r, (run_module env p check cwd0).2.2 = Term.exited r →
        ResolvedHandler env r.handler) := by
  constructor
  · intro hst
    have hk := hkeep_run_moduleM_absent env p check hup hst
      { cwd := cwd0, res := initial_result }
    unfold run_module
    rcases hr : run_moduleM env p check { cwd := cwd0, res := initial_result }
      with ⟨s2, t, r⟩
    rw [hr] at hk
    cases r with
    | ok a =>
      exact hk.1
    | error e =>
      exact hk.2 e rfl
  · intro hst hck hname r hr2
    subst hck
    have he := exitHandler_run_moduleM env p hname hst hup
    have hno := neverOk_run_moduleM env p false { cwd := cwd0, res := initial_result }
    unfold run_module at hr2
    rcases hr : run_moduleM env p false { cwd := cwd0, res := initial_result }
      with ⟨s2, t, rr⟩
    rw [hr] at hr2
    cases rr with
    | ok a =>
      obtain ⟨e, hee⟩ := hno
      rw [hr] at hee
      simp at hee
    | error e =>
      refine he { cwd := cwd0, res := initial_result } r ?_
      rw [hr]
      exact congrArg Except.error hr2

/-- C2 witness: the removal run of the counterexample's shape reports a null
handler, and a successful non-removal run on a host without makepkg (nothing
needing change, handler resolved through the fakeroot build path) exits with
exactly the resolved handler value — here the null makepkg lookup result. -/
theorem C2_witness :
    ((run_module env0 { params0 with state := PkgState.absent } false "/home").2.2).res.handler
      = none
    ∧ (run_module envNoMakepkg { params0 with name := ["aurfoo"] } false "/home").2.2 =
        Term.exited ⟨false, "package is already installed", none⟩
    ∧ ResolvedHandler envNoMakepkg none := by
  refine ⟨?_, ?_, ?_⟩
  · exact (C2_handler_reporting env0 { params0 with state := PkgState.absent } false "/home"
      rfl).1 rfl
  · decide
  · exact (C2_handler_reporting envNoMakepkg { params0 with name := ["aurfoo"] } false "/home"
      rfl).2 (by decide) rfl (by decide) ⟨false, "package is already installed", none⟩
      (by decide)

/-! ## C4 -/

/-- C4: classification precedence for a non-empty identifier in a
non-removal run — (1) archive-pattern names are local files; (2) otherwise an
AUR match with Force unset is an unofficial package (Force suppresses this);
(3) otherwise a successful official lookup is an official package; (4)
otherwise classification fails and the whole grouping aborts with the
"unavailable package" failure, yielding no buckets. -/
theorem C4_classification_precedence (env : Env) (p : Params) (n : String) (hn : n ≠ "") :
    (is_local_package n = true →
      ∀ acc, classifyStep env p n acc = some (acc.1, acc.2.1, acc.2.2 ++ [n]))
    ∧ (is_local_package n = false → env.aurResultcount n > 0 → p.force = false →
      ∀ acc, classifyStep env p n acc = some (acc.1, acc.2.1 ++ [n], acc.2.2))
    ∧ (is_local_package n = false → ¬(env.aurResultcount n > 0 ∧ p.force = false) →
      env.officialOk n = true →
      ∀ acc, classifyStep env p n acc = some
        ((if (env.groupMembers n).isEmpty then acc.1 ++ [n] else acc.1 ++ env.groupMembers n),
         acc.2.1, acc.2.2))
    ∧ (is_local_package n = false → ¬(env.aurResultcount n > 0 ∧ p.force = false) →
      env.officialOk n = false →
      (∀ acc, classifyStep env p n acc = none)
      ∧ (p.state ≠ PkgState.absent → n ∈ p.name →
        classifyBuckets env p p.name = none
        ∧ ∀ s, ∃ t, group_packages env p p.name s =
            ({ s with res := { s.res with msg := "unavailable package has been detected" } }, t,
             Except.error (Term.failed
               { s.res with msg := "unavailable package has been detected" })))) := by
  have hbool : ∀ (hnand : ¬(env.aurResultcount n > 0 ∧ p.force = false)),
      (decide (env.aurResultcount n > 0) && !p.force) = false := by
    intro hnand
    by_cases hA : env.aurResultcount n > 0
    · cases hF : p.force
      · exact absurd ⟨hA, hF⟩ hnand
      · simp [hF]
    · simp [hA]
  refine ⟨?_, ?_, ?_, ?_⟩
  · intro hl acc
    simp [classifyStep, hn, hl]
  · intro hl hA hF acc
    simp [classifyStep, hn, hl, hA, hF]
  · intro hl hnand ho acc
    simp [classifyStep, hn, hl, hbool hnand, ho]
  · intro hl hnand ho
    have hstep : ∀ acc, classifyStep env p n acc = none := by
      intro acc
      simp [classifyStep, hn, hl, hbool hnand, ho]
    refine ⟨hstep, ?_⟩
    intro hst hmem
    have hnone : classifyBuckets env p p.name = none := by
      unfold classifyBuckets
      rw [if_pos hst]
      exact classifyFold_none_of_mem env p hstep p.name hmem _
    refine ⟨hnone, ?_⟩
    intro s
    obtain ⟨t, ht, _⟩ := group_packages_none env p hst hnone s
    exact ⟨t, ht⟩

/-- C4 witness: on the concrete host, a non-local, non-AUR, non-official
identifier in the requested list makes the whole classification abort. -/
theorem C4_witness :
    (∀ acc, classifyStep env0 { params0 with name := ["ghost"] } "ghost" acc = none)
    ∧ classifyBuckets env0 { params0 with name := ["ghost"] } ["ghost"] = none := by
  obtain ⟨_, _, _, h4⟩ :=
    C4_classification_precedence env0 { params0 with name := ["ghost"] } "ghost" (by decide)
  obtain ⟨hstep, hrest⟩ := h4 (by decide) (by decide) (by decide)
  obtain ⟨hnone, _⟩ := hrest (by decide) (by decide)
  exact ⟨hstep, hnone⟩

/-! ## C9 -/

/-- C9: an official group identifier whose expansion is non-empty is
replaced by its member list in the official bucket (the group name itself is
never kept), and — when each member is itself a plain official package —
requesting the group is equivalent to requesting the members directly. -/
theorem C9_group_expansion (env : Env) (p : Params) (g : String) (ms rest : List String)
    (hst : p.state ≠ PkgState.absent)
    (hg0 : g ≠ "") (hgl : is_local_package g = false) (hga : env.aurResultcount g = 0)
    (hgo : env.officialOk g = true) (hgm : env.groupMembers g = ms) (hms : ms ≠ [])
    (hmem : ∀ m ∈ ms, m ≠ "" ∧ is_local_package m = false ∧ env.aurResultcount m = 0
        ∧ env.officialOk m = true ∧ env.groupMembers m = []) :
    (∀ acc, classifyStep env p g acc = some (acc.1 ++ ms, acc.2.1, acc.2.2))
    ∧ classifyBuckets env p (g :: rest) = classifyBuckets env p (ms ++ rest) := by
  have hstep : ∀ acc, classifyStep env p g acc = some (acc.1 ++ ms, acc.2.1, acc.2.2) := by
    intro acc
    have hb : (decide (env.aurResultcount g > 0) && !p.force) = false := by simp [hga]
    have hne : (env.groupMembers g).isEmpty = false := by
      rw [hgm]
      cases ms with
      | nil => exact absurd rfl hms
      | cons a l => rfl
    simp [classifyStep, hg0, hgl, hb, hgo, hne, hgm]
    intro h2
    exact absurd h2 hms
  refine ⟨hstep, ?_⟩
  unfold classifyBuckets
  rw [if_pos hst, if_pos hst]
  rw [classifyFold_cons, hstep ([], [], [])]
  rw [classifyFold_append]
  rw [classifyFold_plain env p ms hmem ([], [], [])]

/-- C9 witness: the group `grp` expanding to `{a, b}` classifies exactly as
requesting `a` and `b` directly. -/
theorem C9_witness :
    classifyBuckets envGrp paramsGrp ["grp"] = classifyBuckets envGrp paramsGrp ["a", "b"]
      ∧ classifyBuckets envGrp paramsGrp ["grp"] = some (["a", "b"], [], []) := by
  have h := C9_group_expansion envGrp paramsGrp "grp" ["a", "b"] []
    (by decide) (by decide) (by decide) (by decide) (by decide) (by decide) (by decide)
    (by decide)
  exact ⟨h.2, by decide⟩

/-! ## C5 -/

/-- C5: the convergence decision `is_state_change_required(state, details)`
holds exactly per the decision table: Absent triggers iff installed, Present
iff not installed, Latest iff not installed or not up to date. -/
theorem C5_convergence_decision_table (st : PkgState) (d : PackageDetails) :
    is_state_change_required st d = true ↔
      ((st = PkgState.absent ∧ d.installed = true)
        ∨ (st = PkgState.present ∧ d.installed = false)
        ∨ (st = PkgState.latest ∧ (d.installed = false ∨ d.latest = false))) := by
  rcases d with ⟨nm, inst, lat⟩
  cases st <;> cases inst <;> cases lat <;> simp [is_state_change_required]

/-! ## C6 -/

/-- C6: `get_package_details` computes the up-to-date flag (a version
comparison) only when the desired state is Latest and the package is
installed — otherwise no version query is issued and the flag equals the
installed flag — and when the remote version cannot be determined the flag
defaults to `true`. -/
theorem C6_up_to_date_computation (env : Env) (p : Params) (pkg : String)
    (aur_package : Bool) (s : St) :
    ∃ d : PackageDetails,
      (get_package_details env p pkg aur_package s).2.2 = Except.ok d
      ∧ d.installed = env.installed pkg
      ∧ (¬(p.state = PkgState.latest ∧ env.installed pkg = true) →
          d.latest = d.installed
          ∧ (get_package_details env p pkg aur_package s).2.1 = [Cmd.queryInstalled pkg])
      ∧ (p.state = PkgState.latest → env.installed pkg = true →
          (aur_package = true → env.aurResultcount pkg = 0) →
          (aur_package = false → env.remoteVersion pkg = none) →
          d.latest = true) := by
  by_cases h : (decide (p.state = PkgState.latest) && env.installed pkg) = true
  · obtain ⟨hlat, hin⟩ : p.state = PkgState.latest ∧ env.installed pkg = true := by
      simpa using h
    rw [get_package_details_app_latest env p pkg aur_package s h]
    refine ⟨_, rfl, rfl, ?_, ?_⟩
    · intro hc
      exact absurd ⟨hlat, hin⟩ hc
    · intro _ _ ha hna
      cases aur_package with
      | true =>
        have : env.aurResultcount pkg = 0 := ha rfl
        simp [this, hin]
      | false =>
        have : env.remoteVersion pkg = none := hna rfl
        simp [this, hin]
  · have hf : (decide (p.state = PkgState.latest) && env.installed pkg) = false :=
      Bool.not_eq_true _ ▸ Bool.eq_false_iff.mpr h
    rw [get_package_details_app_skip env p pkg aur_package s hf]
    refine ⟨_, rfl, rfl, fun _ => ⟨rfl, rfl⟩, ?_⟩
    intro hlat hin _ _
    exact absurd (by simp [hlat, hin]) h

/-- C6 witness: state Latest, installed package, undeterminable remote
version — the up-to-date flag defaults to true. -/
theorem C6_witness :
    ∃ d : PackageDetails,
      (get_package_details env0 { params0 with state := PkgState.latest } "foo" false
          ⟨"/home", initial_result⟩).2.2 = Except.ok d
      ∧ d.latest = true := by
  obtain ⟨d, hok, _, _, hdef⟩ :=
    C6_up_to_date_computation env0 { params0 with state := PkgState.latest } "foo" false
      ⟨"/home", initial_result⟩
  refine ⟨d, hok, hdef rfl (by decide) (fun hc => by simp at hc) (fun _ => rfl)⟩

/-! ## C7 -/

/-- C7: a dry-run (check-mode) execution of the module issues zero mutating
commands: every command in the issued trace is a read-only probing query. -/
theorem C7_dry_run_purity (env : Env) (p : Params) (cwd0 : String) :
    ∀ c ∈ (run_module env p true cwd0).2.1, c.isMutating = false := by
  intro c hc
  have h := probeOnly_run_moduleM_check env p { cwd := cwd0, res := initial_result } c
  unfold run_module at hc
  rcases hr : run_moduleM env p true { cwd := cwd0, res := initial_result } with ⟨s, t, r⟩
  rw [hr] at hc h
  cases r <;> exact h hc

/-- C7 witness: a concrete check-mode run whose trace contains the AUR
metadata probe, shown non-mutating by the theorem. -/
theorem C7_witness :
    Cmd.aurInfo "aurfoo" ∈
        (run_module env0 { params0 with name := ["aurfoo"] } true "/home").2.1
      ∧ (Cmd.aurInfo "aurfoo").isMutating = false := by
  constructor
  · decide
  · exact C7_dry_run_purity env0 { params0 with name := ["aurfoo"] } "/home"
      (Cmd.aurInfo "aurfoo") (by decide)

end Pacaur
